import Mathlib

/-!
Verification development for the request/response engine of an asynchronous
HTTP/1.x client (source: aiohttp/client_reqrep.py).

The Python source is shallowly embedded: pure functions become Lean
functions, the stateful response lifecycle becomes explicit state passing
over a `ResponseState` record plus a step relation on lifecycle events, and
fallible constructors return `Except`.  External collaborators (the yarl
URL library, hashlib digests, the codecs registry, the payload registry and
the charset-sniffing callback) are modelled at their interface boundary as
explicit parameters, exactly as the source consumes them.
-/

/- ===================================================================
   Case-insensitive header multimap (models multidict.CIMultiDict as the
   source observes it: order-preserving list of key/value pairs,
   case-insensitive keys, duplicate keys allowed; `get` returns the first
   matching value, `d[k] = v` (setitem) drops the old entries for the key
   and stores a single pair, `add` appends).
   =================================================================== -/

abbrev Headers := List (String × String)

/-- Python str.lower, written over the character list so that it reduces
in the kernel. -/
def lowerStr (s : String) : String := ⟨s.data.map Char.toLower⟩

/-- Python str.upper, written over the character list so that it reduces
in the kernel. -/
def upperStr (s : String) : String := ⟨s.data.map Char.toUpper⟩

/-- Case-insensitive key equality used by CIMultiDict. -/
def ciEq (a b : String) : Bool := lowerStr a == lowerStr b

/-- headers.get(k): first value whose key matches case-insensitively. -/
def hget (hs : Headers) (k : String) : Option String :=
  (hs.find? fun p => ciEq p.1 k).map Prod.snd

/-- k in headers (case-insensitive containment test). -/
def hcontains (hs : Headers) (k : String) : Bool :=
  hs.any fun p => ciEq p.1 k

/-- headers[k] = v: drop all entries for the key, store one pair. -/
def hset (hs : Headers) (k v : String) : Headers :=
  (hs.filter fun p => !ciEq p.1 k) ++ [(k, v)]

/-- headers.add(k, v): append a pair, keeping existing entries. -/
def hadd (hs : Headers) (k v : String) : Headers := hs ++ [(k, v)]

/- ===================================================================
   Small string helpers: a kernel-evaluable substring test, used for the
   Python test `"chunked" in te`.
   =================================================================== -/

def startsWithChars : List Char → List Char → Bool
  | [], _ => true
  | _ :: _, [] => false
  | a :: as, b :: bs => a == b && startsWithChars as bs

def hasSubChars (sub : List Char) : List Char → Bool
  | [] => sub.isEmpty
  | c :: rest => startsWithChars sub (c :: rest) || hasSubChars sub rest

/-- Python substring test: sub in s. -/
def strContainsSub (s sub : String) : Bool := hasSubChars sub.data s.data

/- ===================================================================
   HTTP version (http.HttpVersion is a (major, minor) named tuple with
   lexicographic tuple comparison).
   =================================================================== -/

structure HttpVersionM where
  major : Nat
  minor : Nat
deriving DecidableEq, Repr

def HttpVersion10 : HttpVersionM := ⟨1, 0⟩
def HttpVersion11 : HttpVersionM := ⟨1, 1⟩

/-- Tuple comparison a < b on (major, minor). -/
def versionLt (a b : HttpVersionM) : Bool :=
  a.major < b.major || (a.major == b.major && a.minor < b.minor)

/- ===================================================================
   ClientRequest.keep_alive (client_reqrep.py lines 542-554).
   The request state relevant to the decision is its version and headers.
   =================================================================== -/

def keep_alive (version : HttpVersionM) (headers : Headers) : Bool :=
  if versionLt version HttpVersion10 then
    -- keep alive not supported at all
    false
  else if version = HttpVersion10 then
    if hget headers "Connection" = some "keep-alive" then true
    else
      -- no headers means we close for Http 1.0
      false
  else if hget headers "Connection" = some "close" then false
  else true

/- ===================================================================
   Fingerprint (client_reqrep.py lines 114-145).
   hashlib digests are external collaborators: the digest computation is a
   parameter of check.  HASHFUNC_BY_DIGESTLEN maps digest length 16 to
   md5, 20 to sha1 and 32 to sha256.
   =================================================================== -/

inductive HashAlg
  | md5
  | sha1
  | sha256
deriving DecidableEq, Repr

def HASHFUNC_BY_DIGESTLEN (n : Nat) : Option HashAlg :=
  if n = 16 then some .md5
  else if n = 20 then some .sha1
  else if n = 32 then some .sha256
  else none

structure FingerprintM where
  hashfunc : HashAlg
  fingerprint : List Nat
deriving DecidableEq, Repr

/-- Fingerprint.__init__: selects the hash by digest length, refuses an
unknown length and the insecure md5/sha1 algorithms. -/
def Fingerprint.init (fp : List Nat) : Except String FingerprintM :=
  match HASHFUNC_BY_DIGESTLEN fp.length with
  | none => .error "fingerprint has invalid length"
  | some hashfunc =>
    if hashfunc = .md5 ∨ hashfunc = .sha1 then
      .error "md5 and sha1 are insecure and not supported. Use sha256."
    else
      .ok ⟨hashfunc, fp⟩

/-- The transport as Fingerprint.check observes it through get_extra_info:
whether an sslcontext is present, the peer certificate bytes, and the peer
address. -/
structure TransportM where
  sslcontext : Bool
  peercert : List Nat
  peerHost : String
  peerPort : Nat
deriving DecidableEq, Repr

/-- ServerFingerprintMismatch payload: expected digest, got digest, host,
port. -/
structure FingerprintMismatch where
  expected : List Nat
  got : List Nat
  host : String
  port : Nat
deriving DecidableEq, Repr

/-- Fingerprint.check: no-op unless the transport reports TLS; otherwise
hash the peer certificate with the selected algorithm and compare.
digestOf models the external hashlib digest computation. -/
def Fingerprint.check (digestOf : HashAlg → List Nat → List Nat)
    (f : FingerprintM) (t : TransportM) : Except FingerprintMismatch Unit :=
  if !t.sslcontext then .ok ()
  else
    let got := digestOf f.hashfunc t.peercert
    if got ≠ f.fingerprint then
      .error ⟨f.fingerprint, got, t.peerHost, t.peerPort⟩
    else .ok ()

/- ===================================================================
   ConnectionKey (client_reqrep.py lines 154-164) and the request
   connection_key property (lines 301-316).
   The ssl field is Union[SSLContext, bool, Fingerprint]; SSLContext and
   Fingerprint objects compare by identity (no __eq__), modelled by an
   identity token; bool compares by value.
   =================================================================== -/

inductive SSLPolicyM
  | flag (b : Bool)
  | ctx (objId : Nat)
  | fprint (objId : Nat)
deriving DecidableEq, Repr

structure ConnectionKeyM where
  host : String
  port : Option Nat
  is_ssl : Bool
  ssl : SSLPolicyM
  proxy : Option String
  proxy_auth : Option (String × String)
  proxy_headers_hash : Option Int
deriving DecidableEq, Repr

/-- ClientRequest.connection_key: hashes the proxy headers when non-empty,
then packs the request fields.  hashFn models the Python hash builtin on
the tuple of proxy header items. -/
def connection_key (hashFn : Headers → Int)
    (host : String) (port : Option Nat) (is_ssl : Bool) (ssl : SSLPolicyM)
    (proxy : Option String) (proxy_auth : Option (String × String))
    (proxy_headers : Headers) : ConnectionKeyM :=
  let h : Option Int := if proxy_headers ≠ [] then some (hashFn proxy_headers) else none
  ⟨host, port, is_ssl, ssl, proxy, proxy_auth, h⟩

/- ===================================================================
   ClientRequest.write_bytes (client_reqrep.py lines 556-604), reduced to
   its effect algebra: the body-streaming attempt has an outcome, and the
   except/else clauses translate it into an effect on the protocol
   (deferred exception slot, eof marker, response timeout timer).
   =================================================================== -/

/-- Outcome of the body-streaming section of write_bytes. -/
inductive BodyWriteOutcome
  | success
  | osError (errno : Option Int) (isTimeoutErr : Bool)
  | cancelled
  | failure
deriving DecidableEq, Repr

/-- Exception value stored in the protocol deferred-exception slot. -/
inductive ProtocolExc
  | timeoutOSError (errno : Option Int)
  | clientOSError (errno : Option Int) (url : String)
  | clientConnectionError (connDesc : String)
deriving DecidableEq, Repr

structure WriteEffects where
  protocolExc : Option ProtocolExc
  eofWritten : Bool
  timeoutStarted : Bool
  returnedEarly : Bool
deriving DecidableEq, Repr

/-- write_bytes: the 100-continue prelude returns early when cancelled
while waiting; otherwise the outcome of streaming the body is classified:
an OSError whose errno is None and which is an asyncio.TimeoutError is
stored as-is, any other OSError is wrapped into ClientOSError carrying the
target URL, any other exception is wrapped into ClientConnectionError
carrying the connection description, a cancellation still writes eof, and
success writes eof and starts the response timeout timer. -/
def write_bytes (continueArmed : Bool) (cancelledDuringContinue : Bool)
    (url : String) (connDesc : String) (outcome : BodyWriteOutcome) : WriteEffects :=
  if continueArmed && cancelledDuringContinue then
    ⟨none, false, false, true⟩
  else
    match outcome with
    | .osError errno isTimeoutErr =>
      let excIsNotTimeout := errno ≠ none ∨ ¬ isTimeoutErr
      if excIsNotTimeout then
        ⟨some (.clientOSError errno url), false, false, false⟩
      else
        ⟨some (.timeoutOSError errno), false, false, false⟩
    | .cancelled => ⟨none, true, false, false⟩
    | .failure => ⟨some (.clientConnectionError connDesc), false, false, false⟩
    | .success => ⟨none, true, true, false⟩

/- ===================================================================
   ClientResponse.get_encoding (client_reqrep.py lines 1080-1101).
   helpers.parse_mimetype, the codecs registry and the session charset
   resolver are external collaborators, passed as parameters.
   =================================================================== -/

/-- Result of helpers.parse_mimetype as get_encoding consumes it: the
type, the subtype, and the charset parameter when present. -/
structure MimeTypeM where
  mtype : String
  subtype : String
  charset : Option String
deriving DecidableEq, Repr

/-- get_encoding: charset parameter of the Content-Type header when it
resolves through the codecs registry; else utf-8 for application/json and
application/rdap; else the charset-sniffing collaborator over the already
read body; a RuntimeError (modelled as the error branch) when the body was
never read and nothing else determined a charset. -/
def get_encoding (parseMime : String → MimeTypeM)
    (codecsLookup : String → Option String)
    (resolveCharset : List Nat → String)
    (headers : Headers) (body : Option (List Nat)) : Except Unit String :=
  let ctype := lowerStr ((hget headers "Content-Type").getD "")
  let mimetype := parseMime ctype
  let resolved : Option String :=
    match mimetype.charset with
    | some enc => if enc = "" then none else codecsLookup enc
    | none => none
  match resolved with
  | some name => .ok name
  | none =>
    if mimetype.mtype = "application" ∧
        (mimetype.subtype = "json" ∨ mimetype.subtype = "rdap") then
      -- RFC 7159 default encoding; RFC 7483 defines application/rdap+json
      .ok "utf-8"
    else
      match body with
      | none => .error ()  -- cannot compute fallback encoding of a not yet read body
      | some b => .ok (resolveCharset b)

/- ===================================================================
   ClientRequest construction: the header/body negotiation pipeline
   (client_reqrep.py __init__ lines 195-272 and the update_* methods).
   The yarl URL is consumed here only through the computed netloc, taken
   as a parameter; cookies, auth and proxy negotiation touch only the
   Cookie / Authorization headers and proxy fields and are outside the
   claims about content negotiation, so they are not replayed here.
   The payload registry is external: bodies arrive as an already-resolved
   payload with an optional known size and header contributions.
   =================================================================== -/

structure PayloadM where
  size : Option Nat
  pheaders : Headers
deriving DecidableEq, Repr

/-- The draft request body: the class-level default is the raw buffer
b""; update_body_from_data installs a Payload.  len(self.body) is only
ever evaluated on the raw default (a payload body always has either a
Content-Length set or chunked forced by the time it could be reached). -/
inductive BodyM
  | raw (b : List Nat)
  | pl (p : PayloadM)
deriving DecidableEq, Repr

def bodyLen : BodyM → Nat
  | .raw b => b.length
  | .pl _ => 0

structure DraftRequest where
  method : String
  headers : Headers
  skipAuto : List String
  compress : Option String
  chunked : Option Bool
  body : BodyM
deriving DecidableEq, Repr

/-- Python truthiness of the Optional[bool] chunked flag. -/
def chunkedTruthy : Option Bool → Bool
  | some true => true
  | _ => false

/-- Python truthiness of the Optional[str] compress flag (an empty string
is falsy). -/
def compressTruthy : Option String → Bool
  | some s => !(s == "")
  | none => false

/-- Case-insensitive membership in the skip_auto_headers CIMultiDict. -/
def skipContains (skip : List String) (k : String) : Bool :=
  skip.any fun s => ciEq s k

def GET_METHODS : List String := ["GET", "HEAD", "OPTIONS", "TRACE"]

/-- The token character class of _CONTAINS_CONTROL_CHAR_RE (the regex
rejects a method containing any character outside it); codepoint 39 is
the apostrophe character and 96 the backtick character. -/
def isTokenChar (c : Char) : Bool :=
  c.isAlphanum ||
  c ∈ ['-', '!', '#', '$', '%', '&', '*', '+', '.', '^', '_', '|', '~'] ||
  c.toNat = 39 || c.toNat = 96

def methodValid (method : String) : Bool :=
  method.data.all isTokenChar

/-- update_headers: start from the Host header computed from the URL
(netloc is that computed value, an external URL concern), then merge the
caller headers; a key spelled host (any case) overwrites, any other key
is appended. -/
def update_headers (netloc : String) (user : Headers) : Headers :=
  let hs : Headers := [("Host", netloc)]
  user.foldl
    (fun acc kv =>
      if lowerStr kv.1 == "host" then hset acc kv.1 kv.2
      else hadd acc kv.1 kv.2)
    hs

/-- SERVER_SOFTWARE from the http module, an external constant. -/
def SERVER_SOFTWARE : String := "Python/aiohttp"

/-- DEFAULT_HEADERS; the Accept-Encoding value advertises brotli when the
external HAS_BROTLI flag holds, modelled with brotli available. -/
def DEFAULT_HEADERS : Headers :=
  [("Accept", "*/*"), ("Accept-Encoding", "gzip, deflate, br")]

/-- update_auto_headers: a default header is added only when neither the
present headers nor the skip list mention it; User-Agent is stored with
setitem. -/
def update_auto_headers (hs : Headers) (skip : List String) : Headers :=
  let used := hs ++ (skip.map fun h => (h, ""))
  let hs :=
    DEFAULT_HEADERS.foldl
      (fun acc kv => if hcontains used kv.1 then acc else hadd acc kv.1 kv.2)
      hs
  if hcontains used "User-Agent" then hs
  else hset hs "User-Agent" SERVER_SOFTWARE

/-- update_content_encoding: does nothing without data; with an explicit
non-empty Content-Encoding header a set compress flag is a configuration
error; with compress alone the header is written and chunked forced. -/
def update_content_encoding (st : DraftRequest) (hasData : Bool) :
    Except String DraftRequest :=
  if !hasData then .ok st
  else
    let enc := lowerStr ((hget st.headers "Content-Encoding").getD "")
    if enc ≠ "" then
      if compressTruthy st.compress then
        .error "compress can not be set if Content-Encoding header is set"
      else .ok st
    else if compressTruthy st.compress then
      .ok { st with
              headers := hset st.headers "Content-Encoding" (st.compress.getD ""),
              chunked := some true }  -- enable chunked, no need to deal with length
    else .ok st

/-- One step of the payload header copy loop at the end of
update_body_from_data: a key already present or in the skip list is
skipped, anything else is stored with setitem. -/
def copyStep (skipA : List String) (acc : Headers) (kv : String × String) :
    Headers :=
  if hcontains acc kv.1 then acc
  else if skipContains skipA kv.1 then acc
  else hset acc kv.1 kv.2

/-- update_body_from_data (lines 478-515): installs the payload, then if
chunked is not set and no Content-Length is present either sets
Content-Length from the payload size or forces chunked when the size is
unknown; finally copies the payload header contributions, skipping keys
already present or in the skip list. -/
def update_body_from_data (st : DraftRequest) (data : Option PayloadM) :
    DraftRequest :=
  match data with
  | none => st
  | some p =>
    let st := { st with body := .pl p }
    -- enable chunked encoding if needed
    let st :=
      if !chunkedTruthy st.chunked then
        if !hcontains st.headers "Content-Length" then
          match p.size with
          | none => { st with chunked := some true }
          | some n =>
            -- the source re-tests Content-Length here; the test is
            -- unchanged since the outer check
            if !hcontains st.headers "Content-Length" then
              { st with headers := hset st.headers "Content-Length" (toString n) }
            else st
        else st
      else st
    -- copy payload headers
    { st with headers := p.pheaders.foldl (copyStep st.skipAuto) st.headers }

/-- update_transfer_encoding (lines 440-460): an explicit chunked
Transfer-Encoding header conflicts with the chunked flag; the chunked
flag conflicts with a Content-Length header and otherwise writes the
Transfer-Encoding header; with neither, a missing Content-Length is
computed from len of the body. -/
def update_transfer_encoding (st : DraftRequest) : Except String DraftRequest :=
  let te := lowerStr ((hget st.headers "Transfer-Encoding").getD "")
  if strContainsSub te "chunked" then
    if chunkedTruthy st.chunked then
      .error "chunked can not be set if \"Transfer-Encoding: chunked\" header is set"
    else .ok st
  else if chunkedTruthy st.chunked then
    if hcontains st.headers "Content-Length" then
      .error "chunked can not be set if Content-Length header is set"
    else
      .ok { st with headers := hset st.headers "Transfer-Encoding" "chunked" }
  else
    if !hcontains st.headers "Content-Length" then
      .ok { st with
              headers := hset st.headers "Content-Length" (toString (bodyLen st.body)) }
    else .ok st

/-- The header set after update_headers and update_auto_headers, before
the encoding/body negotiation steps. -/
def initHeaders (netloc : String) (user : Headers) (skip : List String) :
    Headers :=
  update_auto_headers (update_headers netloc user) skip

/-- ClientRequest.__init__, restricted to the negotiation steps that
decide the claims about header conflicts and transfer encoding, in source
order: the method token check, update_headers, update_auto_headers,
update_content_encoding, update_body_from_data, and (when data is present
or the method is not a GET-family method) update_transfer_encoding. -/
def buildRequest (method netloc : String) (user : Headers)
    (skip : List String) (compress : Option String) (chunked : Option Bool)
    (data : Option PayloadM) : Except String DraftRequest :=
  if !methodValid method then
    .error "Method cannot contain non-token characters"
  else
    let m := upperStr method
    let hs := initHeaders netloc user skip
    let st : DraftRequest :=
      { method := m, headers := hs, skipAuto := skip,
        compress := compress, chunked := chunked, body := .raw [] }
    match update_content_encoding st data.isSome with
    | .error e => .error e
    | .ok st =>
      let st := update_body_from_data st data
      if data.isSome || !(GET_METHODS.contains st.method) then
        update_transfer_encoding st
      else .ok st

/- ===================================================================
   ClientResponse lifecycle (client_reqrep.py lines 717-1078): the
   release/close state machine, the self-clearing writer task handle, the
   deferred connection release, and read().

   The state records the response flags (_closed, _released), the bound
   connection and what has been done to it, the writer task (whether it
   has reached a terminal state, whether the response still holds the
   handle — the handle self-clears through the done callback installed by
   the _writer setter — and whether a deferred _release_connection
   callback is registered on it), the protocol upgrade flag, the cached
   body, and the content stream (its bytes, whether an exception was set
   on it, and how many times its read method was invoked).  The model
   covers started responses (self.content is bound).
   =================================================================== -/

structure ResponseState where
  status : Nat
  reason : String
  headers : Headers
  requestInfoId : Nat
  historyIds : List Nat
  closed : Bool
  released : Bool
  hasConn : Bool
  connReleased : Bool
  connClosed : Bool
  writerDone : Bool
  writerHandle : Bool
  deferredRelease : Bool
  writerCancelRequested : Bool
  upgraded : Bool
  body : Option (List Nat)
  contentData : List Nat
  contentExc : Bool
  contentReads : Nat
deriving DecidableEq, Repr

/-- _release_connection (lines 1030-1036): with a bound connection,
release it at once when no writer handle is held, otherwise register a
done callback on the writer that will run _release_connection again. -/
def releaseConnection (s : ResponseState) : ResponseState :=
  if s.hasConn then
    if !s.writerHandle then
      { s with connReleased := true, hasConn := false }
    else
      { s with deferredRelease := true }
  else s

/-- _cleanup_writer (lines 1043-1046): cancel the writer task if a handle
is held (a cooperative cancellation request; the task reaches its
terminal state later, which is the writerFinish event). -/
def cleanupWriter (s : ResponseState) : ResponseState :=
  if s.writerHandle then { s with writerCancelRequested := true } else s

/-- _notify_content (lines 1048-1053): fail the content stream with
ClientConnectionError if it has no exception yet, and mark released. -/
def notifyContent (s : ResponseState) : ResponseState :=
  let s := if !s.contentExc then { s with contentExc := true } else s
  { s with released := true }

/-- release (lines 999-1006). -/
def respRelease (s : ResponseState) : ResponseState :=
  let s := if !s.released then notifyContent s else s
  let s := { s with closed := true }
  let s := cleanupWriter s
  releaseConnection s

/-- close (lines 986-997), with the event loop open. -/
def respClose (s : ResponseState) : ResponseState :=
  let s := if !s.released then notifyContent s else s
  let s := { s with closed := true }
  let s := cleanupWriter s
  if s.hasConn then { s with connClosed := true, hasConn := false } else s

/-- _response_eof (lines 969-980): the end-of-payload callback; a no-op
once closed or when the protocol upgraded. -/
def responseEof (s : ResponseState) : ResponseState :=
  if s.closed then s
  else if s.hasConn && s.upgraded then s
  else
    let s := { s with closed := true }
    let s := cleanupWriter s
    releaseConnection s

/-- The writer task reaches its terminal state: the done callbacks run in
registration order — first __reset_writer clears the handle (the setter
registered it when the task was installed), then a deferred
_release_connection callback if release registered one. -/
def writerFinish (s : ResponseState) : ResponseState :=
  if s.writerDone then s
  else
    let s := { s with writerDone := true }
    let s := if s.writerHandle then { s with writerHandle := false } else s
    if s.deferredRelease then releaseConnection { s with deferredRelease := false }
    else s

/-- StreamReader.read as the response consumes it: raises the stored
exception when one was set, otherwise returns the stream bytes; each call
touches the stream. -/
def contentRead (s : ResponseState) : ResponseState × Except Unit (List Nat) :=
  let s := { s with contentReads := s.contentReads + 1 }
  if s.contentExc then (s, .error ()) else (s, .ok s.contentData)

/-- _wait_released (lines 1038-1041): awaiting the writer task brings it
to its terminal state (running its done callbacks) when a handle is still
held, then _release_connection runs. -/
def waitReleased (s : ResponseState) : ResponseState :=
  let s := if s.writerHandle then writerFinish s else s
  releaseConnection s

inductive ReadErr
  | connectionClosed
deriving DecidableEq, Repr

/-- read (lines 1060-1078): with no cached body, read the content stream
(a failure closes the response and re-raises; the stored exception is the
ClientConnectionError set by _notify_content) and cache the result; with
a cached body, a released response raises ClientConnectionError; finally,
unless the connection was upgraded, wait for the writer and release the
connection. -/
def respRead (s : ResponseState) : ResponseState × Except ReadErr (List Nat) :=
  if s.body = none then
    match contentRead s with
    | (s, .error _) => (respClose s, .error .connectionClosed)
    | (s, .ok b) =>
      let s := { s with body := some b }
      let s := if !(s.hasConn && s.upgraded) then waitReleased s else s
      (s, .ok b)
  else if s.released then (s, .error .connectionClosed)
  else
    let s := if !(s.hasConn && s.upgraded) then waitReleased s else s
    (s, .ok (s.body.getD []))

/-- ok property (lines 1008-1015). -/
def respOk (s : ResponseState) : Bool := decide (400 > s.status)

/-- ClientResponseError payload as raise_for_status builds it. -/
structure RespError where
  requestInfoId : Nat
  historyIds : List Nat
  status : Nat
  message : String
  headers : Headers
deriving DecidableEq, Repr

/-- raise_for_status (lines 1017-1028): on a non-ok status the response
is released and a ClientResponseError carrying the request info, history,
status, reason and headers is raised. -/
def raise_for_status (s : ResponseState) : ResponseState × Option RespError :=
  if !respOk s then
    (respRelease s,
     some ⟨s.requestInfoId, s.historyIds, s.status, s.reason, s.headers⟩)
  else (s, none)

/-- Lifecycle events for the temporal claims: the externally triggered
transitions of a started response bound to a connection. -/
inductive RespEvent
  | release
  | close
  | eof
  | writerFinishEv
deriving DecidableEq, Repr

def respStep (s : ResponseState) : RespEvent → ResponseState
  | .release => respRelease s
  | .close => respClose s
  | .eof => responseEof s
  | .writerFinishEv => writerFinish s

def respRun (s : ResponseState) (evs : List RespEvent) : ResponseState :=
  evs.foldl respStep s

/-- A started response bound to a connection whose body-writer task is
still in flight: the initial state of the end-to-end release scenario. -/
def initialInFlight : ResponseState :=
  { status := 200, reason := "OK", headers := [], requestInfoId := 0,
    historyIds := [], closed := false, released := false, hasConn := true,
    connReleased := false, connClosed := false, writerDone := false,
    writerHandle := true, deferredRelease := false,
    writerCancelRequested := false, upgraded := false, body := none,
    contentData := [], contentExc := false, contentReads := 0 }

/- ===================================================================
   Theorems
   =================================================================== -/

/-- Claim C2: keep_alive returns false whenever the HTTP version is below
1.0; for HTTP/1.0 it returns true exactly when a Connection keep-alive
header is present; for HTTP/1.1 it returns true unless a Connection close
header is present. -/
theorem keep_alive_spec (v : HttpVersionM) (hs : Headers) :
    (versionLt v HttpVersion10 = true → keep_alive v hs = false) ∧
    (keep_alive HttpVersion10 hs =
      decide (hget hs "Connection" = some "keep-alive")) ∧
    (keep_alive HttpVersion11 hs =
      !decide (hget hs "Connection" = some "close")) := by
  refine ⟨fun h => by simp [keep_alive, h], ?_, ?_⟩
  · by_cases hc : hget hs "Connection" = some "keep-alive" <;>
      simp [keep_alive, versionLt, HttpVersion10, hc]
  · by_cases hc : hget hs "Connection" = some "close" <;>
      simp [keep_alive, versionLt, HttpVersion10, HttpVersion11, hc]

/-- Witness for keep_alive_spec: the below-1.0 clause at HTTP/0.9 with a
keep-alive header present. -/
theorem keep_alive_spec_witness :
    keep_alive ⟨0, 9⟩ [("Connection", "keep-alive")] = false :=
  (keep_alive_spec ⟨0, 9⟩ [("Connection", "keep-alive")]).1 (by decide)

/-- Claim C5: Fingerprint construction succeeds exactly for 32-byte
digests, refusing 16/20-byte digests as insecure md5/sha1 and any other
length as unknown; check is a no-op without TLS and over TLS raises a
mismatch carrying the expected digest, actual digest and peer address
exactly when the computed digest differs from the pinned one. -/
theorem fingerprint_spec (fp : List Nat)
    (digestOf : HashAlg → List Nat → List Nat)
    (f : FingerprintM) (t : TransportM) :
    ((Fingerprint.init fp).isOk = true ↔ fp.length = 32) ∧
    (fp.length = 16 ∨ fp.length = 20 →
      Fingerprint.init fp =
        .error "md5 and sha1 are insecure and not supported. Use sha256.") ∧
    (fp.length ≠ 16 → fp.length ≠ 20 → fp.length ≠ 32 →
      Fingerprint.init fp = .error "fingerprint has invalid length") ∧
    (t.sslcontext = false → Fingerprint.check digestOf f t = .ok ()) ∧
    (t.sslcontext = true → digestOf f.hashfunc t.peercert ≠ f.fingerprint →
      Fingerprint.check digestOf f t =
        .error ⟨f.fingerprint, digestOf f.hashfunc t.peercert,
                t.peerHost, t.peerPort⟩) ∧
    (t.sslcontext = true → digestOf f.hashfunc t.peercert = f.fingerprint →
      Fingerprint.check digestOf f t = .ok ()) := by
  refine ⟨?_, ?_, ?_, ?_, ?_, ?_⟩
  · by_cases h16 : fp.length = 16 <;> by_cases h20 : fp.length = 20 <;>
      by_cases h32 : fp.length = 32 <;>
      simp_all [Fingerprint.init, HASHFUNC_BY_DIGESTLEN, Except.isOk, Except.toBool]
  · rintro (h | h) <;> simp [Fingerprint.init, HASHFUNC_BY_DIGESTLEN, h]
  · intro h16 h20 h32
    simp [Fingerprint.init, HASHFUNC_BY_DIGESTLEN, h16, h20, h32]
  · intro h; simp [Fingerprint.check, h]
  · intro h hne; simp [Fingerprint.check, h, hne]
  · intro h heq; simp [Fingerprint.check, h, heq]

/-- Witness for fingerprint_spec: a 32-byte digest is accepted, a 20-byte
digest is refused as insecure, a 40-byte digest has no algorithm, a
plaintext transport passes, and a mismatching TLS transport raises the
mismatch payload. -/
theorem fingerprint_spec_witness :
    (Fingerprint.init (List.replicate 32 0)).isOk = true ∧
    Fingerprint.init (List.replicate 20 0) =
      .error "md5 and sha1 are insecure and not supported. Use sha256." ∧
    Fingerprint.init (List.replicate 40 0) =
      .error "fingerprint has invalid length" ∧
    Fingerprint.check (fun _ c => c) ⟨.sha256, [1]⟩ ⟨false, [2], "h", 443⟩ =
      .ok () ∧
    Fingerprint.check (fun _ c => c) ⟨.sha256, [1]⟩ ⟨true, [2], "h", 443⟩ =
      .error ⟨[1], [2], "h", 443⟩ :=
  ⟨(fingerprint_spec (List.replicate 32 0) (fun _ c => c) ⟨.sha256, [1]⟩
      ⟨false, [2], "h", 443⟩).1.mpr (by decide),
   (fingerprint_spec (List.replicate 20 0) (fun _ c => c) ⟨.sha256, [1]⟩
      ⟨false, [2], "h", 443⟩).2.1 (Or.inr (by decide)),
   (fingerprint_spec (List.replicate 40 0) (fun _ c => c) ⟨.sha256, [1]⟩
      ⟨false, [2], "h", 443⟩).2.2.1 (by decide) (by decide) (by decide),
   (fingerprint_spec [] (fun _ c => c) ⟨.sha256, [1]⟩
      ⟨false, [2], "h", 443⟩).2.2.2.1 rfl,
   (fingerprint_spec [] (fun _ c => c) ⟨.sha256, [1]⟩
      ⟨true, [2], "h", 443⟩).2.2.2.2.1 rfl (by decide)⟩

/-- Claim C6: write_bytes surfaces every body-streaming failure through
the protocol deferred-exception slot: a timeout-classified OS error (no
errno, an asyncio timeout) is stored as-is, any other OS error is wrapped
into a client OS error carrying the target URL, any other unexpected
exception is wrapped as a generic connection error; on success the
end-of-body marker is written and the response timeout timer started. -/
theorem write_bytes_spec (errno : Option Int) (isTimeoutErr : Bool)
    (url connDesc : String) :
    (write_bytes false false url connDesc (.osError none true) =
      ⟨some (.timeoutOSError none), false, false, false⟩) ∧
    (errno ≠ none ∨ isTimeoutErr = false →
      write_bytes false false url connDesc (.osError errno isTimeoutErr) =
        ⟨some (.clientOSError errno url), false, false, false⟩) ∧
    (write_bytes false false url connDesc .failure =
      ⟨some (.clientConnectionError connDesc), false, false, false⟩) ∧
    (write_bytes false false url connDesc .success =
      ⟨none, true, true, false⟩) := by
  refine ⟨by simp [write_bytes], fun h => ?_, by simp [write_bytes],
          by simp [write_bytes]⟩
  rcases h with h | h <;> simp [write_bytes, h]

/-- Witness for write_bytes_spec: a broken-pipe OS error (errno 32) is
wrapped into the client OS error carrying the URL. -/
theorem write_bytes_spec_witness :
    write_bytes false false "http://x/" "conn" (.osError (some 32) false) =
      ⟨some (.clientOSError (some 32) "http://x/"), false, false, false⟩ :=
  (write_bytes_spec (some 32) false "http://x/" "conn").2.1
    (Or.inl (by simp))

/-- Claim C9: ConnectionKey equality is reflexive, symmetric and
transitive; keys are unequal whenever any of host, port, TLS-ness, TLS
policy, proxy, proxy auth or proxy-headers hash differ; and
connection_key built over the same destination with differing TLS-ness
yields unequal keys. -/
theorem connection_key_spec (k1 k2 : ConnectionKeyM) :
    (k1 = k1) ∧
    (k1 = k2 → k2 = k1) ∧
    (∀ k3, k1 = k2 → k2 = k3 → k1 = k3) ∧
    (k1.host ≠ k2.host ∨ k1.port ≠ k2.port ∨ k1.is_ssl ≠ k2.is_ssl ∨
      k1.ssl ≠ k2.ssl ∨ k1.proxy ≠ k2.proxy ∨
      k1.proxy_auth ≠ k2.proxy_auth ∨
      k1.proxy_headers_hash ≠ k2.proxy_headers_hash → k1 ≠ k2) ∧
    (∀ (hashFn : Headers → Int) host port ssl proxy proxy_auth
        proxy_headers b1 b2, b1 ≠ b2 →
      connection_key hashFn host port b1 ssl proxy proxy_auth proxy_headers ≠
        connection_key hashFn host port b2 ssl proxy proxy_auth
          proxy_headers) := by
  refine ⟨rfl, Eq.symm, fun k3 h1 h2 => h1.trans h2, fun hne heq => ?_, ?_⟩
  · subst heq
    rcases hne with h | h | h | h | h | h | h <;> exact h rfl
  · intro hashFn host port ssl proxy proxy_auth proxy_headers b1 b2 hb heq
    exact hb (congrArg ConnectionKeyM.is_ssl heq)

/-- Witness for connection_key_spec: the same host and port with ssl true
versus ssl false yield unequal keys, through both the field-difference
clause and the connection_key clause. -/
theorem connection_key_spec_witness :
    (⟨"example.com", some 443, true, .flag true, none, none, none⟩ :
        ConnectionKeyM) ≠
      ⟨"example.com", some 443, false, .flag true, none, none, none⟩ ∧
    connection_key (fun _ => 0) "example.com" (some 443) true (.flag true)
        none none [] ≠
      connection_key (fun _ => 0) "example.com" (some 443) false (.flag true)
        none none [] :=
  ⟨(connection_key_spec
      ⟨"example.com", some 443, true, .flag true, none, none, none⟩
      ⟨"example.com", some 443, false, .flag true, none, none, none⟩).2.2.2.1
      (Or.inr (Or.inr (Or.inl (by decide)))),
   (connection_key_spec
      ⟨"example.com", some 443, true, .flag true, none, none, none⟩
      ⟨"example.com", some 443, false, .flag true, none, none, none⟩).2.2.2.2
      (fun _ => 0) "example.com" (some 443) (.flag true) none none [] true
      false (by decide)⟩

/-- Claim C10: ok holds exactly when the status is below 400;
raise_for_status returns the state unchanged without raising for a status
below 400, and for a status of 400 or greater releases the response
(leaving it closed) and raises a response error carrying the request
info, history, status, reason and headers. -/
theorem raise_for_status_spec (s : ResponseState) :
    (respOk s = decide (s.status < 400)) ∧
    (s.status < 400 → raise_for_status s = (s, none)) ∧
    (400 ≤ s.status →
      raise_for_status s =
        (respRelease s,
         some ⟨s.requestInfoId, s.historyIds, s.status, s.reason,
               s.headers⟩) ∧
      (respRelease s).closed = true) := by
  refine ⟨rfl, fun h => ?_, fun h => ⟨?_, ?_⟩⟩
  · simp [raise_for_status, respOk, h]
  · simp [raise_for_status, respOk, Nat.not_lt.mpr h]
  · simp only [respRelease, cleanupWriter, releaseConnection, notifyContent]
    repeat' split
    all_goals rfl

/- Helper lemmas for the lifecycle claims. -/

/-- The liveness invariant of the writer handle: the handle is held
exactly while the task has not reached its terminal state (it self-clears
through the done callback), and the connection is handed back to the pool
only after the task is terminal. -/
def liveInv (s : ResponseState) : Prop :=
  s.writerHandle = !s.writerDone ∧ (s.connReleased = true → s.writerDone = true)

theorem liveInv_releaseConnection (s : ResponseState) (h : liveInv s) :
    liveInv (releaseConnection s) := by
  obtain ⟨h1, h2⟩ := h
  unfold liveInv releaseConnection
  by_cases hc : s.hasConn = true <;> by_cases hw : s.writerHandle = true <;>
    simp_all

theorem liveInv_cleanupWriter (s : ResponseState) (h : liveInv s) :
    liveInv (cleanupWriter s) := by
  obtain ⟨h1, h2⟩ := h
  unfold liveInv cleanupWriter
  by_cases hw : s.writerHandle = true <;> simp_all

theorem liveInv_notifyContent (s : ResponseState) (h : liveInv s) :
    liveInv (notifyContent s) := by
  obtain ⟨h1, h2⟩ := h
  unfold liveInv notifyContent
  by_cases he : s.contentExc = true <;> simp_all

theorem liveInv_respRelease (s : ResponseState) (h : liveInv s) :
    liveInv (respRelease s) := by
  unfold respRelease
  apply liveInv_releaseConnection
  apply liveInv_cleanupWriter
  split
  · exact liveInv_notifyContent s h
  · exact h

theorem liveInv_respClose (s : ResponseState) (h : liveInv s) :
    liveInv (respClose s) := by
  obtain ⟨h1, h2⟩ := h
  unfold respClose notifyContent cleanupWriter liveInv
  by_cases hr : s.released = true <;> by_cases he : s.contentExc = true <;>
    by_cases hw : s.writerHandle = true <;> by_cases hc : s.hasConn = true <;>
      simp_all

theorem liveInv_responseEof (s : ResponseState) (h : liveInv s) :
    liveInv (responseEof s) := by
  unfold responseEof
  split
  · exact h
  · split
    · exact h
    · exact liveInv_releaseConnection _ (liveInv_cleanupWriter _ h)

theorem liveInv_writerFinish (s : ResponseState) (h : liveInv s) :
    liveInv (writerFinish s) := by
  obtain ⟨h1, h2⟩ := h
  unfold writerFinish
  by_cases hd : s.writerDone = true
  · simpa [hd] using ⟨h1, h2⟩
  · have hw : s.writerHandle = true := by simp_all
    by_cases hdr : s.deferredRelease = true <;>
      by_cases hc : s.hasConn = true <;>
        simp_all [liveInv, releaseConnection]

theorem liveInv_step (s : ResponseState) (e : RespEvent) (h : liveInv s) :
    liveInv (respStep s e) := by
  cases e
  · exact liveInv_respRelease s h
  · exact liveInv_respClose s h
  · exact liveInv_responseEof s h
  · exact liveInv_writerFinish s h

theorem liveInv_run (evs : List RespEvent) (s : ResponseState)
    (h : liveInv s) : liveInv (respRun s evs) := by
  induction evs generalizing s with
  | nil => exact h
  | cons e evs ih => exact ih (respStep s e) (liveInv_step s e h)

/-- Claim C1: over every sequence of lifecycle events from a started
response with an in-flight writer task, the connection is never handed
back to the pool while the writer task has not reached a terminal state
(whenever the connection has been released to the pool, the writer is
terminal and the handle cleared); and triggering release while the writer
is in flight does not release the connection but registers the deferred
completion observer, after which the writer finishing releases the
connection with the handle cleared to none. -/
theorem connection_release_ordering (evs : List RespEvent) :
    ((respRun initialInFlight evs).connReleased = true →
      (respRun initialInFlight evs).writerDone = true ∧
      (respRun initialInFlight evs).writerHandle = false) ∧
    ((respRun initialInFlight evs).writerHandle = true →
      (respRun initialInFlight evs).hasConn = true →
      (respRelease (respRun initialInFlight evs)).connReleased = false ∧
      (respRelease (respRun initialInFlight evs)).deferredRelease = true ∧
      (writerFinish (respRelease (respRun initialInFlight evs))).connReleased
        = true ∧
      (writerFinish (respRelease (respRun initialInFlight evs))).writerHandle
        = false) := by
  have hinv : liveInv (respRun initialInFlight evs) :=
    liveInv_run evs initialInFlight ⟨by decide, by decide⟩
  obtain ⟨h1, h2⟩ := hinv
  set s := respRun initialInFlight evs with hs
  constructor
  · intro hcr
    refine ⟨h2 hcr, ?_⟩
    rw [h1, h2 hcr]
    rfl
  · intro hh hc
    have hdone : s.writerDone = false := by
      rw [hh] at h1
      cases hv : s.writerDone
      · rfl
      · rw [hv] at h1; exact absurd h1.symm (by simp)
    have hcr : s.connReleased = false := by
      cases hv : s.connReleased
      · rfl
      · exact absurd (h2 hv) (by simp [hdone])
    by_cases hrel : s.released = true <;> by_cases hce : s.contentExc = true <;>
      simp_all [respRelease, notifyContent, cleanupWriter, releaseConnection,
        writerFinish]

/-- Witness for connection_release_ordering: the scenario release then
writer completion, and the in-flight deferral clause at the initial
state. -/
theorem connection_release_ordering_witness :
    ((respRun initialInFlight [.release, .writerFinishEv]).connReleased =
        true →
      (respRun initialInFlight [.release, .writerFinishEv]).writerDone =
        true ∧
      (respRun initialInFlight [.release, .writerFinishEv]).writerHandle =
        false) ∧
    ((respRelease (respRun initialInFlight [])).connReleased = false ∧
      (respRelease (respRun initialInFlight [])).deferredRelease = true ∧
      (writerFinish (respRelease (respRun initialInFlight []))).connReleased
        = true ∧
      (writerFinish (respRelease (respRun initialInFlight []))).writerHandle
        = false) :=
  ⟨(connection_release_ordering [.release, .writerFinishEv]).1,
   (connection_release_ordering []).2 (by decide) (by decide)⟩

theorem waitReleased_contentReads (s : ResponseState) :
    (waitReleased s).contentReads = s.contentReads := by
  simp only [waitReleased, writerFinish, releaseConnection]
  repeat' split
  all_goals rfl

theorem waitReleased_body (s : ResponseState) :
    (waitReleased s).body = s.body := by
  simp only [waitReleased, writerFinish, releaseConnection]
  repeat' split
  all_goals rfl

theorem respRelease_body (s : ResponseState) :
    (respRelease s).body = s.body := by
  simp only [respRelease, notifyContent, cleanupWriter, releaseConnection]
  repeat' split
  all_goals rfl

theorem respRelease_contentExc (s : ResponseState)
    (hr : s.released = false) : (respRelease s).contentExc = true := by
  simp only [respRelease, notifyContent, cleanupWriter, releaseConnection, hr]
  repeat' split
  all_goals simp_all

/-- Claim C7: with the body fully cached and the response not explicitly
released, read returns the identical cached bytes without touching the
content stream again; releasing a response before any body was cached
makes a subsequent read fail with the connection-closed error. -/
theorem read_spec (s : ResponseState) (b : List Nat) :
    (s.body = some b → s.released = false →
      (respRead s).2 = .ok b ∧
      (respRead s).1.contentReads = s.contentReads ∧
      (respRead s).1.body = some b) ∧
    (s.body = none → s.released = false →
      (respRead (respRelease s)).2 = .error .connectionClosed) := by
  constructor
  · intro hb hr
    refine ⟨?_, ?_, ?_⟩ <;>
      simp [respRead, hb, hr] <;> split <;>
        simp [waitReleased_contentReads, waitReleased_body, hb]
  · intro hb hr
    have h1 : (respRelease s).body = none := by rw [respRelease_body, hb]
    have h2 : (respRelease s).contentExc = true := respRelease_contentExc s hr
    simp [respRead, contentRead, h1, h2]

/-- Witness for read_spec: a cached three-byte body is returned again
untouched, and a release with no cached body makes read fail closed. -/
theorem read_spec_witness :
    (respRead { initialInFlight with body := some [1, 2, 3] }).2 =
      .ok [1, 2, 3] ∧
    (respRead (respRelease initialInFlight)).2 = .error .connectionClosed :=
  ⟨((read_spec { initialInFlight with body := some [1, 2, 3] } [1, 2, 3]).1
      rfl rfl).1,
   (read_spec initialInFlight [1, 2, 3]).2 rfl rfl⟩

/-- Claim C8: get_encoding resolves in order: a resolvable charset
parameter of the Content-Type header wins; otherwise the JSON-family
media types (application/json, application/rdap) give utf-8; otherwise an
already read body is handed to the external charset-sniffing
collaborator; and with no body read and nothing determinable from the
headers the call fails. -/
theorem get_encoding_spec (parseMime : String → MimeTypeM)
    (codecsLookup : String → Option String)
    (resolveCharset : List Nat → String)
    (hs : Headers) (body : Option (List Nat)) :
    (∀ enc name,
      (parseMime (lowerStr ((hget hs "Content-Type").getD ""))).charset =
        some enc →
      enc ≠ "" → codecsLookup enc = some name →
      get_encoding parseMime codecsLookup resolveCharset hs body =
        .ok name) ∧
    ((∀ enc,
        (parseMime (lowerStr ((hget hs "Content-Type").getD ""))).charset =
          some enc →
        enc = "" ∨ codecsLookup enc = none) →
      ((parseMime (lowerStr ((hget hs "Content-Type").getD ""))).mtype =
          "application" ∧
        ((parseMime (lowerStr ((hget hs "Content-Type").getD ""))).subtype =
            "json" ∨
          (parseMime (lowerStr ((hget hs "Content-Type").getD ""))).subtype =
            "rdap") →
        get_encoding parseMime codecsLookup resolveCharset hs body =
          .ok "utf-8") ∧
      (¬((parseMime (lowerStr ((hget hs "Content-Type").getD ""))).mtype =
            "application" ∧
          ((parseMime (lowerStr ((hget hs "Content-Type").getD ""))).subtype =
              "json" ∨
            (parseMime (lowerStr ((hget hs "Content-Type").getD ""))).subtype =
              "rdap")) →
        (∀ b, body = some b →
          get_encoding parseMime codecsLookup resolveCharset hs body =
            .ok (resolveCharset b)) ∧
        (body = none →
          get_encoding parseMime codecsLookup resolveCharset hs body =
            .error ()))) := by
  constructor
  · intro enc name hcs hne hlook
    simp [get_encoding, hcs, hne, hlook]
  · intro hunres
    have hres :
        (match (parseMime (lowerStr ((hget hs "Content-Type").getD ""))).charset
          with
          | some enc => if enc = "" then none else codecsLookup enc
          | none => none) = (none : Option String) := by
      cases hcs :
          (parseMime (lowerStr ((hget hs "Content-Type").getD ""))).charset with
      | none => rfl
      | some enc =>
        rcases hunres enc hcs with h | h
        · simp [h]
        · by_cases he : enc = "" <;> simp [he, h]
    refine ⟨fun hjson => ?_, fun hnj => ⟨fun b hb => ?_, fun hb => ?_⟩⟩
    · simp only [get_encoding]
      rw [hres]
      simp [hjson.1, hjson.2]
    · simp only [get_encoding]
      rw [hres]
      simp only [if_neg hnj, hb]
    · simp only [get_encoding]
      rw [hres]
      simp only [if_neg hnj, hb]

/-- Witness for get_encoding_spec: a latin-1 charset parameter resolves
through the codecs collaborator; without any charset a JSON media type
gives utf-8; a plain media type with an unread body fails. -/
theorem get_encoding_spec_witness :
    get_encoding (fun _ => ⟨"text", "html", some "latin-1"⟩)
      (fun e => if e = "latin-1" then some "iso8859-1" else none)
      (fun _ => "sniffed") [("Content-Type", "text/html")] none =
      .ok "iso8859-1" ∧
    get_encoding (fun _ => ⟨"application", "json", none⟩) (fun _ => none)
      (fun _ => "sniffed") [] none = .ok "utf-8" ∧
    get_encoding (fun _ => ⟨"text", "html", none⟩) (fun _ => none)
      (fun _ => "sniffed") [] (some [65]) = .ok "sniffed" ∧
    get_encoding (fun _ => ⟨"text", "html", none⟩) (fun _ => none)
      (fun _ => "sniffed") [] none = .error () :=
  ⟨(get_encoding_spec (fun _ => ⟨"text", "html", some "latin-1"⟩)
      (fun e => if e = "latin-1" then some "iso8859-1" else none)
      (fun _ => "sniffed") [("Content-Type", "text/html")] none).1
      "latin-1" "iso8859-1" rfl (by decide) (by decide),
   ((get_encoding_spec (fun _ => ⟨"application", "json", none⟩)
      (fun _ => none) (fun _ => "sniffed") [] none).2
      (fun enc h => by simp at h)).1 ⟨rfl, Or.inl rfl⟩,
   (((get_encoding_spec (fun _ => ⟨"text", "html", none⟩) (fun _ => none)
      (fun _ => "sniffed") [] (some [65])).2
      (fun enc h => by simp at h)).2 (by simp)).1 [65] rfl,
   (((get_encoding_spec (fun _ => ⟨"text", "html", none⟩) (fun _ => none)
      (fun _ => "sniffed") [] none).2
      (fun enc h => by simp at h)).2 (by simp)).2 rfl⟩

/- Infrastructure lemmas about the case-insensitive header operations. -/

theorem ciEq_true_iff (a b : String) :
    ciEq a b = true ↔ lowerStr a = lowerStr b := by
  simp [ciEq]

theorem ciEq_congr (a b c : String) (h : ciEq a b = true) :
    ciEq a c = ciEq b c := by
  rw [ciEq_true_iff] at h
  simp [ciEq, h]

theorem hcontains_of_ciEq (hs : Headers) (a q : String)
    (hq : ciEq a q = true) (h : hcontains hs q = true) :
    hcontains hs a = true := by
  simp only [hcontains, List.any_eq_true] at *
  obtain ⟨p, hp, hpq⟩ := h
  refine ⟨p, hp, ?_⟩
  rw [ciEq_true_iff] at *
  rw [hpq, ← hq]

theorem hget_cons (p : String × String) (t : Headers) (q : String) :
    hget (p :: t) q = if ciEq p.1 q then some p.2 else hget t q := by
  unfold hget
  rw [List.find?_cons]
  by_cases h : ciEq p.1 q <;> simp [h]

theorem hcontains_cons (p : String × String) (t : Headers) (q : String) :
    hcontains (p :: t) q = (ciEq p.1 q || hcontains t q) := by
  simp [hcontains]

theorem hset_cons (p : String × String) (t : Headers) (k v : String) :
    hset (p :: t) k v =
      if ciEq p.1 k then hset t k v else p :: hset t k v := by
  by_cases h : ciEq p.1 k <;> simp [hset, List.filter_cons, h]

theorem hget_hset (hs : Headers) (k v q : String) :
    hget (hset hs k v) q = if ciEq k q then some v else hget hs q := by
  induction hs with
  | nil =>
    by_cases h : ciEq k q <;> simp [hset, hget, List.find?, h]
  | cons p t ih =>
    rw [hset_cons]
    by_cases hpk : ciEq p.1 k
    · rw [if_pos hpk, ih, hget_cons]
      have hpq : ciEq p.1 q = ciEq k q := ciEq_congr _ _ _ hpk
      by_cases hkq : ciEq k q
      · simp [hkq]
      · have : ciEq p.1 q = false := by rw [hpq]; simpa using hkq
        simp [hkq, this]
    · rw [if_neg hpk, hget_cons, hget_cons, ih]
      by_cases hpq : ciEq p.1 q
      · have hkq : ciEq k q = false := by
          by_contra hh
          have hh' : ciEq k q = true := by simpa using hh
          apply hpk
          rw [ciEq_true_iff] at hpq hh' ⊢
          rw [hpq, ← hh']
        simp [hpq, hkq]
      · simp [hpq]

theorem hcontains_hset (hs : Headers) (k v q : String) :
    hcontains (hset hs k v) q = (ciEq k q || hcontains hs q) := by
  induction hs with
  | nil => simp [hset, hcontains]
  | cons p t ih =>
    rw [hset_cons]
    by_cases hpk : ciEq p.1 k
    · rw [if_pos hpk, ih, hcontains_cons]
      have hpq : ciEq p.1 q = ciEq k q := ciEq_congr _ _ _ hpk
      rw [hpq]
      cases ciEq k q <;> simp
    · rw [if_neg hpk, hcontains_cons, ih, hcontains_cons]
      cases ciEq p.1 q <;> cases ciEq k q <;> simp

theorem hcontains_hadd (hs : Headers) (k v q : String) :
    hcontains (hadd hs k v) q = (hcontains hs q || ciEq k q) := by
  simp [hcontains, hadd]

theorem hget_hadd_not (hs : Headers) (k v q : String)
    (h : ciEq k q = false) : hget (hadd hs k v) q = hget hs q := by
  induction hs with
  | nil => simp [hadd, hget, List.find?, h]
  | cons p t ih =>
    have : hadd (p :: t) k v = p :: hadd t k v := by simp [hadd]
    rw [this, hget_cons, hget_cons, ih]

theorem hget_foldl_preserved {q : String}
    (f : Headers → String × String → Headers) (l : Headers)
    (hf : ∀ acc kv, kv ∈ l → hget (f acc kv) q = hget acc q) :
    ∀ acc, hget (l.foldl f acc) q = hget acc q := by
  induction l with
  | nil => intro acc; rfl
  | cons kv t ih =>
    intro acc
    rw [List.foldl_cons,
      ih (fun acc kv hkv => hf acc kv (List.mem_cons_of_mem _ hkv)),
      hf acc kv (List.mem_cons_self _ _)]

theorem hcontains_foldl_preserved {q : String}
    (f : Headers → String × String → Headers) (l : Headers)
    (hf : ∀ acc kv, kv ∈ l → hcontains (f acc kv) q = hcontains acc q) :
    ∀ acc, hcontains (l.foldl f acc) q = hcontains acc q := by
  induction l with
  | nil => intro acc; rfl
  | cons kv t ih =>
    intro acc
    rw [List.foldl_cons,
      ih (fun acc kv hkv => hf acc kv (List.mem_cons_of_mem _ hkv)),
      hf acc kv (List.mem_cons_self _ _)]

theorem copyStep_cases (skipA : List String) (acc : Headers)
    (kv : String × String) :
    copyStep skipA acc kv = acc ∨
      (hcontains acc kv.1 = false ∧
        copyStep skipA acc kv = hset acc kv.1 kv.2) := by
  unfold copyStep
  by_cases h1 : hcontains acc kv.1
  · left; simp [h1]
  · by_cases h2 : skipContains skipA kv.1
    · left; simp [h1, h2]
    · right
      exact ⟨by simpa using h1, by simp [h1, h2]⟩

/-- The payload header copy never disturbs a key that is already present:
a pair for a new key is stored only when its key is absent, and an absent
key case-insensitively equal to a present one is impossible. -/
theorem copy_foldl_contains (skipA : List String) (l : Headers) (q : String) :
    ∀ acc, hcontains acc q = true →
      hget (l.foldl (copyStep skipA) acc) q = hget acc q ∧
      hcontains (l.foldl (copyStep skipA) acc) q = true := by
  induction l with
  | nil => intro acc h; exact ⟨rfl, h⟩
  | cons kv t ih =>
    intro acc h
    rw [List.foldl_cons]
    rcases copyStep_cases skipA acc kv with hstep | ⟨habs, hstep⟩
    · rw [hstep]; exact ih acc h
    · have hkq : ciEq kv.1 q = false := by
        by_contra hh
        have hh' : ciEq kv.1 q = true := by simpa using hh
        rw [hcontains_of_ciEq acc kv.1 q hh' h] at habs
        exact Bool.true_eq_false.mp habs
      rw [hstep]
      have hc' : hcontains (hset acc kv.1 kv.2) q = true := by
        rw [hcontains_hset, hkq, h]
        rfl
      obtain ⟨hg, hc⟩ := ih _ hc'
      refine ⟨?_, hc⟩
      rw [hg, hget_hset, hkq]
      rfl

/-- The payload header copy leaves any key absent from the payload
contributions untouched. -/
theorem copy_foldl_clean (skipA : List String) (l : Headers) (q : String)
    (hcl : ∀ kv ∈ l, ciEq kv.1 q = false) :
    ∀ acc, hget (l.foldl (copyStep skipA) acc) q = hget acc q ∧
      hcontains (l.foldl (copyStep skipA) acc) q = hcontains acc q := by
  induction l with
  | nil => intro acc; exact ⟨rfl, rfl⟩
  | cons kv t ih =>
    intro acc
    rw [List.foldl_cons]
    have ih' := ih (fun kv hkv => hcl kv (List.mem_cons_of_mem _ hkv))
    have hkq : ciEq kv.1 q = false := hcl kv (List.mem_cons_self _ _)
    rcases copyStep_cases skipA acc kv with hstep | ⟨_, hstep⟩
    · rw [hstep]; exact ih' acc
    · rw [hstep]
      obtain ⟨hg, hc⟩ := ih' (hset acc kv.1 kv.2)
      rw [hg, hc, hget_hset, hcontains_hset, hkq]
      exact ⟨rfl, by simp⟩

/- Derived conditions used to state the negotiation claims. -/

/-- The lowered Content-Encoding header value tested by
update_content_encoding. -/
def ceEnc (H : Headers) : String :=
  lowerStr ((hget H "Content-Encoding").getD "")

/-- Whether the lowered Transfer-Encoding header value contains the word
chunked, the test of update_transfer_encoding. -/
def teHasChunked (H : Headers) : Bool :=
  strContainsSub (lowerStr ((hget H "Transfer-Encoding").getD "")) "chunked"

/-- Whether the constructor runs update_transfer_encoding: a body is
present or the method is not a GET-family method. -/
def teResolutionRuns (method : String) (data : Option PayloadM) : Bool :=
  data.isSome || !(GET_METHODS.contains (upperStr method))

/-- A payload whose header contributions stay away from the two
transfer-framing headers. -/
def cleanPayload : Option PayloadM → Bool
  | none => true
  | some p => p.pheaders.all fun kv =>
      !ciEq kv.1 "Content-Length" && !ciEq kv.1 "Transfer-Encoding"

/-- Chunked forced by the compress flag (update_content_encoding sets
chunked when compress is set, a body is present and no Content-Encoding
header exists). -/
def compressForced (H : Headers) (compress : Option String)
    (data : Option PayloadM) : Bool :=
  data.isSome && (ceEnc H == "") && compressTruthy compress

/-- Chunked forced by an unknown body size (update_body_from_data). -/
def sizeForced (H : Headers) (compress : Option String)
    (chunked : Option Bool) : Option PayloadM → Bool
  | some p =>
      !chunkedTruthy chunked && !compressForced H compress (some p) &&
        !hcontains H "Content-Length" && (p.size == none)
  | none => false

/-- The chunked flag as update_transfer_encoding finally observes it:
requested by the caller, forced by compress, or forced by an unknown
body size. -/
def effChunked (H : Headers) (compress : Option String)
    (chunked : Option Bool) (data : Option PayloadM) : Bool :=
  chunkedTruthy chunked || compressForced H compress data ||
    sizeForced H compress chunked data

/- Stage lemmas for the negotiation pipeline. -/

theorem hcontains_eq_isSome_hget (hs : Headers) (q : String) :
    hcontains hs q = (hget hs q).isSome := by
  induction hs with
  | nil => rfl
  | cons p t ih =>
    rw [hcontains_cons, hget_cons, ih]
    cases h : ciEq p.1 q <;> simp

theorem teHasChunked_hcontains (H : Headers) (h : teHasChunked H = true) :
    hcontains H "Transfer-Encoding" = true := by
  rw [hcontains_eq_isSome_hget]
  cases hg : hget H "Transfer-Encoding" with
  | some v => rfl
  | none =>
    unfold teHasChunked at h
    rw [hg] at h
    simp [lowerStr, strContainsSub, hasSubChars] at h

theorem ce_step_eq (st : DraftRequest) (hasData : Bool) :
    update_content_encoding st hasData =
      if hasData = false then .ok st
      else if ceEnc st.headers = "" then
        (if compressTruthy st.compress = true then
          .ok { st with
                  headers :=
                    hset st.headers "Content-Encoding" (st.compress.getD ""),
                  chunked := some true }
        else .ok st)
      else if compressTruthy st.compress = true then
        .error "compress can not be set if Content-Encoding header is set"
      else .ok st := by
  unfold update_content_encoding ceEnc
  by_cases hd : hasData <;>
    by_cases he : lowerStr ((hget st.headers "Content-Encoding").getD "") = "" <;>
      by_cases hc : compressTruthy st.compress <;> simp [hd, he, hc]

theorem update_body_from_data_none (st : DraftRequest) :
    update_body_from_data st none = st := rfl

theorem body_step_chunked (st : DraftRequest) (p : PayloadM)
    (hch : chunkedTruthy st.chunked = true) :
    update_body_from_data st (some p) =
      { st with
          body := BodyM.pl p,
          headers := p.pheaders.foldl (copyStep st.skipAuto) st.headers } := by
  unfold update_body_from_data
  simp [hch]

theorem body_step_cl_present (st : DraftRequest) (p : PayloadM)
    (hch : chunkedTruthy st.chunked = false)
    (hcl : hcontains st.headers "Content-Length" = true) :
    update_body_from_data st (some p) =
      { st with
          body := BodyM.pl p,
          headers := p.pheaders.foldl (copyStep st.skipAuto) st.headers } := by
  unfold update_body_from_data
  simp [hch, hcl]

theorem body_step_size_none (st : DraftRequest) (p : PayloadM)
    (hch : chunkedTruthy st.chunked = false)
    (hcl : hcontains st.headers "Content-Length" = false)
    (hsz : p.size = none) :
    update_body_from_data st (some p) =
      { st with
          body := BodyM.pl p,
          chunked := some true,
          headers := p.pheaders.foldl (copyStep st.skipAuto) st.headers } := by
  unfold update_body_from_data
  simp [hch, hcl, hsz]

theorem body_step_size_some (st : DraftRequest) (p : PayloadM) (n : Nat)
    (hch : chunkedTruthy st.chunked = false)
    (hcl : hcontains st.headers "Content-Length" = false)
    (hsz : p.size = some n) :
    update_body_from_data st (some p) =
      { st with
          body := BodyM.pl p,
          headers :=
            p.pheaders.foldl (copyStep st.skipAuto)
              (hset st.headers "Content-Length" (toString n)) } := by
  unfold update_body_from_data
  simp [hch, hcl, hsz]

/-- cleanPayload gives the per-key hypotheses of copy_foldl_clean. -/
theorem cleanPayload_keys (p : PayloadM)
    (h : cleanPayload (some p) = true) :
    (∀ kv ∈ p.pheaders, ciEq kv.1 "Content-Length" = false) ∧
    (∀ kv ∈ p.pheaders, ciEq kv.1 "Transfer-Encoding" = false) := by
  unfold cleanPayload at h
  rw [List.all_eq_true] at h
  constructor <;> intro kv hkv <;> have := h kv hkv <;>
    simp only [Bool.and_eq_true, Bool.not_eq_true'] at this
  · exact this.1
  · exact this.2

theorem buildRequest_eq (method netloc : String) (user : Headers)
    (skip : List String) (compress : Option String) (chunked : Option Bool)
    (data : Option PayloadM) (hm : methodValid method = true) :
    buildRequest method netloc user skip compress chunked data =
      (match update_content_encoding
          { method := upperStr method,
            headers := initHeaders netloc user skip,
            skipAuto := skip, compress := compress, chunked := chunked,
            body := .raw [] } data.isSome with
       | .error e => .error e
       | .ok st =>
         let st2 := update_body_from_data st data
         if data.isSome || !(GET_METHODS.contains st2.method) then
           update_transfer_encoding st2
         else .ok st2) := by
  unfold buildRequest
  simp [hm]

theorem ciEq_ce_te : ciEq "Content-Encoding" "Transfer-Encoding" = false := by
  decide

theorem ciEq_ce_cl : ciEq "Content-Encoding" "Content-Length" = false := by
  decide

theorem ciEq_cl_cl : ciEq "Content-Length" "Content-Length" = true := by
  decide

theorem ciEq_cl_te : ciEq "Content-Length" "Transfer-Encoding" = false := by
  decide

theorem ciEq_te_cl : ciEq "Transfer-Encoding" "Content-Length" = false := by
  decide

theorem ciEq_te_te : ciEq "Transfer-Encoding" "Transfer-Encoding" = true := by
  decide

/-- The state handed to update_transfer_encoding when a body is present
and the content-encoding step did not fail: the Transfer-Encoding header
is untouched, the chunked flag is exactly the effective chunked flag,
Content-Length is original or the freshly computed body length, and the
computed length is the payload size. -/
theorem negotiation_pre_te (method netloc : String) (user : Headers)
    (skip : List String) (compress : Option String) (chunked : Option Bool)
    (p : PayloadM) (hm : methodValid method = true)
    (hclean : cleanPayload (some p) = true)
    (hnc1 : ¬(ceEnc (initHeaders netloc user skip) ≠ "" ∧
        compressTruthy compress = true)) :
    ∃ st2 : DraftRequest,
      buildRequest method netloc user skip compress chunked (some p) =
        update_transfer_encoding st2 ∧
      hget st2.headers "Transfer-Encoding" =
        hget (initHeaders netloc user skip) "Transfer-Encoding" ∧
      chunkedTruthy st2.chunked =
        effChunked (initHeaders netloc user skip) compress chunked (some p) ∧
      hcontains st2.headers "Content-Length" =
        (hcontains (initHeaders netloc user skip) "Content-Length" ||
          (!chunkedTruthy chunked &&
            !compressForced (initHeaders netloc user skip) compress (some p) &&
            !hcontains (initHeaders netloc user skip) "Content-Length" &&
            p.size.isSome)) ∧
      (∀ n, p.size = some n →
        hcontains (initHeaders netloc user skip) "Content-Length" = false →
        chunkedTruthy chunked = false →
        compressForced (initHeaders netloc user skip) compress (some p) =
          false →
        hget st2.headers "Content-Length" = some (toString n)) := by
  have hkeys := cleanPayload_keys p hclean
  have hCLcopy := copy_foldl_clean skip p.pheaders "Content-Length" hkeys.1
  have hTEcopy := copy_foldl_clean skip p.pheaders "Transfer-Encoding" hkeys.2
  by_cases hce : ceEnc (initHeaders netloc user skip) = ""
  · by_cases hcp : compressTruthy compress = true
    · -- compress forces chunked and writes Content-Encoding
      refine ⟨{ method := upperStr method,
                headers := p.pheaders.foldl (copyStep skip)
                  (hset (initHeaders netloc user skip) "Content-Encoding"
                    (compress.getD "")),
                skipAuto := skip, compress := compress, chunked := some true,
                body := .pl p }, ?_, ?_, ?_, ?_, ?_⟩
      · rw [buildRequest_eq _ _ _ _ _ _ _ hm, ce_step_eq]
        simp only [Option.isSome_some]
        rw [if_neg (by simp)]
        rw [if_pos (by simpa using hce), if_pos hcp]
        have hb := body_step_chunked
          { method := upperStr method,
            headers := hset (initHeaders netloc user skip) "Content-Encoding"
              (compress.getD ""),
            skipAuto := skip, compress := compress, chunked := some true,
            body := BodyM.raw [] } p (by rfl)
        simp only [hb]
        simp
      · rw [(hTEcopy _).1, hget_hset, ciEq_ce_te]
        rfl
      · show true = _
        unfold effChunked compressForced
        simp [hce, hcp]
      · rw [(hCLcopy _).2, hcontains_hset, ciEq_ce_cl]
        unfold compressForced
        simp [hce, hcp]
      · intro n hn hcl hck hcf
        unfold compressForced at hcf
        simp [hce, hcp] at hcf
    · -- content-encoding step is a no-op
      have hcp' : compressTruthy compress = false := by simpa using hcp
      have hcf : compressForced (initHeaders netloc user skip) compress
          (some p) = false := by
        unfold compressForced
        simp [hcp']
      by_cases hck : chunkedTruthy chunked = true
      · refine ⟨{ method := upperStr method,
                  headers := p.pheaders.foldl (copyStep skip)
                    (initHeaders netloc user skip),
                  skipAuto := skip, compress := compress, chunked := chunked,
                  body := .pl p }, ?_, ?_, ?_, ?_, ?_⟩
        · rw [buildRequest_eq _ _ _ _ _ _ _ hm, ce_step_eq]
          simp only [Option.isSome_some]
          rw [if_neg (by simp)]
          rw [if_pos (by simpa using hce), if_neg (by simp [hcp'])]
          have hb := body_step_chunked
            { method := upperStr method,
              headers := initHeaders netloc user skip,
              skipAuto := skip, compress := compress, chunked := chunked,
              body := BodyM.raw [] } p (by simpa using hck)
          simp only [hb]
          simp
        · exact (hTEcopy _).1
        · show chunkedTruthy chunked = _
          unfold effChunked
          simp [hck]
        · rw [(hCLcopy _).2]
          simp [hck]
        · intro n hn hcl hck' hcf'
          rw [hck] at hck'
          exact absurd hck' (by simp)
      · have hck' : chunkedTruthy chunked = false := by simpa using hck
        by_cases hcl : hcontains (initHeaders netloc user skip)
            "Content-Length" = true
        · refine ⟨{ method := upperStr method,
                    headers := p.pheaders.foldl (copyStep skip)
                      (initHeaders netloc user skip),
                    skipAuto := skip, compress := compress,
                    chunked := chunked, body := .pl p }, ?_, ?_, ?_, ?_, ?_⟩
          · rw [buildRequest_eq _ _ _ _ _ _ _ hm, ce_step_eq]
            simp only [Option.isSome_some]
            rw [if_neg (by simp)]
            rw [if_pos (by simpa using hce), if_neg (by simp [hcp'])]
            have hb := body_step_cl_present
              { method := upperStr method,
                headers := initHeaders netloc user skip,
                skipAuto := skip, compress := compress, chunked := chunked,
                body := BodyM.raw [] } p hck' hcl
            simp only [hb]
            simp
          · exact (hTEcopy _).1
          · show chunkedTruthy chunked = _
            unfold effChunked sizeForced
            simp [hck', hcf, hcl]
          · rw [(hCLcopy _).2, hcl]
            simp
          · intro n hn hcl' hck'' hcf'
            rw [hcl] at hcl'
            exact absurd hcl' (by simp)
        · have hcl' : hcontains (initHeaders netloc user skip)
              "Content-Length" = false := by simpa using hcl
          cases hsz : p.size with
          | none =>
            refine ⟨{ method := upperStr method,
                      headers := p.pheaders.foldl (copyStep skip)
                        (initHeaders netloc user skip),
                      skipAuto := skip, compress := compress,
                      chunked := some true, body := .pl p }, ?_, ?_, ?_, ?_,
                      ?_⟩
            · rw [buildRequest_eq _ _ _ _ _ _ _ hm, ce_step_eq]
              simp only [Option.isSome_some]
              rw [if_neg (by simp)]
              rw [if_pos (by simpa using hce), if_neg (by simp [hcp'])]
              have hb := body_step_size_none
                { method := upperStr method,
                  headers := initHeaders netloc user skip,
                  skipAuto := skip, compress := compress, chunked := chunked,
                  body := BodyM.raw [] } p hck' hcl' hsz
              simp only [hb]
              simp
            · exact (hTEcopy _).1
            · show true = _
              unfold effChunked sizeForced
              simp [hck', hcf, hcl', hsz]
            · rw [(hCLcopy _).2, hcl']
              simp [hsz]
            · intro n hn
              exact absurd hn (by simp)
          | some n =>
            refine ⟨{ method := upperStr method,
                      headers := p.pheaders.foldl (copyStep skip)
                        (hset (initHeaders netloc user skip) "Content-Length"
                          (toString n)),
                      skipAuto := skip, compress := compress,
                      chunked := chunked, body := .pl p }, ?_, ?_, ?_, ?_, ?_⟩
            · rw [buildRequest_eq _ _ _ _ _ _ _ hm, ce_step_eq]
              simp only [Option.isSome_some]
              rw [if_neg (by simp)]
              rw [if_pos (by simpa using hce), if_neg (by simp [hcp'])]
              have hb := body_step_size_some
                { method := upperStr method,
                  headers := initHeaders netloc user skip,
                  skipAuto := skip, compress := compress, chunked := chunked,
                  body := BodyM.raw [] } p n hck' hcl' hsz
              simp only [hb]
              simp
            · rw [(hTEcopy _).1, hget_hset, ciEq_cl_te]
              rfl
            · show chunkedTruthy chunked = _
              unfold effChunked sizeForced
              simp [hck', hcf, hsz]
            · rw [(hCLcopy _).2, hcontains_hset, ciEq_cl_cl, hcl']
              simp [hck', hcf, hsz]
            · intro m hm' hcl'' hck'' hcf'
              rw [(hCLcopy _).1, hget_hset, ciEq_cl_cl]
              simp only [Option.some.injEq] at hm'
              rw [hm']
              rfl
  · -- a Content-Encoding header is present: compress must be unset
    have hcp' : compressTruthy compress = false := by
      by_contra hh
      exact hnc1 ⟨hce, by simpa using hh⟩
    have hcf : compressForced (initHeaders netloc user skip) compress
        (some p) = false := by
      unfold compressForced
      simp [hcp']
    by_cases hck : chunkedTruthy chunked = true
    · refine ⟨{ method := upperStr method,
                headers := p.pheaders.foldl (copyStep skip)
                  (initHeaders netloc user skip),
                skipAuto := skip, compress := compress, chunked := chunked,
                body := .pl p }, ?_, ?_, ?_, ?_, ?_⟩
      · rw [buildRequest_eq _ _ _ _ _ _ _ hm, ce_step_eq]
        simp only [Option.isSome_some]
        rw [if_neg (by simp)]
        rw [if_neg (by simpa using hce), if_neg (by simp [hcp'])]
        have hb := body_step_chunked
          { method := upperStr method,
            headers := initHeaders netloc user skip,
            skipAuto := skip, compress := compress, chunked := chunked,
            body := BodyM.raw [] } p (by simpa using hck)
        simp only [hb]
        simp
      · exact (hTEcopy _).1
      · show chunkedTruthy chunked = _
        unfold effChunked
        simp [hck]
      · rw [(hCLcopy _).2]
        simp [hck]
      · intro n hn hcl hck'' hcf'
        rw [hck] at hck''
        exact absurd hck'' (by simp)
    · have hck' : chunkedTruthy chunked = false := by simpa using hck
      by_cases hcl : hcontains (initHeaders netloc user skip)
          "Content-Length" = true
      · refine ⟨{ method := upperStr method,
                  headers := p.pheaders.foldl (copyStep skip)
                    (initHeaders netloc user skip),
                  skipAuto := skip, compress := compress, chunked := chunked,
                  body := .pl p }, ?_, ?_, ?_, ?_, ?_⟩
        · rw [buildRequest_eq _ _ _ _ _ _ _ hm, ce_step_eq]
          simp only [Option.isSome_some]
          rw [if_neg (by simp)]
          rw [if_neg (by simpa using hce), if_neg (by simp [hcp'])]
          have hb := body_step_cl_present
            { method := upperStr method,
              headers := initHeaders netloc user skip,
              skipAuto := skip, compress := compress, chunked := chunked,
              body := BodyM.raw [] } p hck' hcl
          simp only [hb]
          simp
        · exact (hTEcopy _).1
        · show chunkedTruthy chunked = _
          unfold effChunked sizeForced
          simp [hck', hcf, hcl]
        · rw [(hCLcopy _).2, hcl]
          simp
        · intro n hn hcl' hck'' hcf'
          rw [hcl] at hcl'
          exact absurd hcl' (by simp)
      · have hcl' : hcontains (initHeaders netloc user skip)
            "Content-Length" = false := by simpa using hcl
        cases hsz : p.size with
        | none =>
          refine ⟨{ method := upperStr method,
                    headers := p.pheaders.foldl (copyStep skip)
                      (initHeaders netloc user skip),
                    skipAuto := skip, compress := compress,
                    chunked := some true, body := .pl p }, ?_, ?_, ?_, ?_, ?_⟩
          · rw [buildRequest_eq _ _ _ _ _ _ _ hm, ce_step_eq]
            simp only [Option.isSome_some]
            rw [if_neg (by simp)]
            rw [if_neg (by simpa using hce), if_neg (by simp [hcp'])]
            have hb := body_step_size_none
              { method := upperStr method,
                headers := initHeaders netloc user skip,
                skipAuto := skip, compress := compress, chunked := chunked,
                body := BodyM.raw [] } p hck' hcl' hsz
            simp only [hb]
            simp
          · exact (hTEcopy _).1
          · show true = _
            unfold effChunked sizeForced
            simp [hck', hcf, hcl', hsz]
          · rw [(hCLcopy _).2, hcl']
            simp [hsz]
          · intro n hn
            exact absurd hn (by simp)
        | some n =>
          refine ⟨{ method := upperStr method,
                    headers := p.pheaders.foldl (copyStep skip)
                      (hset (initHeaders netloc user skip) "Content-Length"
                        (toString n)),
                    skipAuto := skip, compress := compress, chunked := chunked,
                    body := .pl p }, ?_, ?_, ?_, ?_, ?_⟩
          · rw [buildRequest_eq _ _ _ _ _ _ _ hm, ce_step_eq]
            simp only [Option.isSome_some]
            rw [if_neg (by simp)]
            rw [if_neg (by simpa using hce), if_neg (by simp [hcp'])]
            have hb := body_step_size_some
              { method := upperStr method,
                headers := initHeaders netloc user skip,
                skipAuto := skip, compress := compress, chunked := chunked,
                body := BodyM.raw [] } p n hck' hcl' hsz
            simp only [hb]
            simp
          · rw [(hTEcopy _).1, hget_hset, ciEq_cl_te]
            rfl
          · show chunkedTruthy chunked = _
            unfold effChunked sizeForced
            simp [hck', hcf, hsz]
          · rw [(hCLcopy _).2, hcontains_hset, ciEq_cl_cl, hcl']
            simp [hck', hcf, hsz]
          · intro m hm' hcl'' hck'' hcf'
            rw [(hCLcopy _).1, hget_hset, ciEq_cl_cl]
            simp only [Option.some.injEq] at hm'
            rw [hm']
            rfl

theorem te_step_ok (st : DraftRequest)
    (h1 : ¬(strContainsSub
        (lowerStr ((hget st.headers "Transfer-Encoding").getD "")) "chunked" =
          true ∧
        chunkedTruthy st.chunked = true))
    (h2 : ¬(chunkedTruthy st.chunked = true ∧
        hcontains st.headers "Content-Length" = true)) :
    (update_transfer_encoding st).isOk = true := by
  unfold update_transfer_encoding
  by_cases ha : strContainsSub
      (lowerStr ((hget st.headers "Transfer-Encoding").getD "")) "chunked" <;>
    by_cases hb : chunkedTruthy st.chunked <;>
      by_cases hc : hcontains st.headers "Content-Length" <;>
        simp_all [Except.isOk, Except.toBool]

theorem te_step_exclusive (st st' : DraftRequest)
    (hte : strContainsSub
      (lowerStr ((hget st.headers "Transfer-Encoding").getD "")) "chunked" =
        false)
    (hok : update_transfer_encoding st = .ok st') :
    (hcontains st'.headers "Content-Length" &&
      teHasChunked st'.headers) = false := by
  unfold update_transfer_encoding at hok
  rw [if_neg (by simp [hte])] at hok
  by_cases hb : chunkedTruthy st.chunked
  · rw [if_pos hb] at hok
    by_cases hc : hcontains st.headers "Content-Length"
    · rw [if_pos hc] at hok
      exact absurd hok (by simp)
    · rw [if_neg hc] at hok
      simp only [Except.ok.injEq] at hok
      rw [← hok]
      have : hcontains
          (hset st.headers "Transfer-Encoding" "chunked")
          "Content-Length" = false := by
        rw [hcontains_hset, ciEq_te_cl]
        simpa using hc
      simp [this]
  · rw [if_neg hb] at hok
    by_cases hc : hcontains st.headers "Content-Length"
    · rw [if_neg (by simp [hc])] at hok
      simp only [Except.ok.injEq] at hok
      rw [← hok]
      unfold teHasChunked
      simp [hte]
    · rw [if_pos (by simp [hc])] at hok
      simp only [Except.ok.injEq] at hok
      rw [← hok]
      have : hget
          (hset st.headers "Content-Length"
            (toString (bodyLen st.body))) "Transfer-Encoding" =
          hget st.headers "Transfer-Encoding" := by
        rw [hget_hset, ciEq_cl_te]
        rfl
      unfold teHasChunked
      simp [this, hte]

/-- Conflict of the compress flag with an explicit Content-Encoding
header, when a body is present. -/
theorem negotiation_ce_conflict (method netloc : String) (user : Headers)
    (skip : List String) (compress : Option String) (chunked : Option Bool)
    (p : PayloadM) (hm : methodValid method = true)
    (hce : ceEnc (initHeaders netloc user skip) ≠ "")
    (hcp : compressTruthy compress = true) :
    buildRequest method netloc user skip compress chunked (some p) =
      .error "compress can not be set if Content-Encoding header is set" := by
  rw [buildRequest_eq _ _ _ _ _ _ _ hm, ce_step_eq]
  simp only [Option.isSome_some]
  rw [if_neg (by simp)]
  rw [if_neg (by simpa using hce), if_pos hcp]

theorem te_conflict_after (st1 : DraftRequest) (p : PayloadM)
    (hte1 : teHasChunked st1.headers = true)
    (hck1 : chunkedTruthy st1.chunked = true) :
    update_transfer_encoding (update_body_from_data st1 (some p)) =
      .error
        "chunked can not be set if \"Transfer-Encoding: chunked\" header is set" := by
  rw [body_step_chunked st1 p hck1]
  have hc : hcontains st1.headers "Transfer-Encoding" = true :=
    teHasChunked_hcontains _ hte1
  have hg := (copy_foldl_contains st1.skipAuto p.pheaders "Transfer-Encoding"
    st1.headers hc).1
  unfold teHasChunked at hte1
  unfold update_transfer_encoding
  simp [hg, hte1, hck1]

theorem te_conflict_after_sizeforced (st1 : DraftRequest) (p : PayloadM)
    (hte1 : teHasChunked st1.headers = true)
    (hck1 : chunkedTruthy st1.chunked = false)
    (hcl1 : hcontains st1.headers "Content-Length" = false)
    (hsz : p.size = none) :
    update_transfer_encoding (update_body_from_data st1 (some p)) =
      .error
        "chunked can not be set if \"Transfer-Encoding: chunked\" header is set" := by
  rw [body_step_size_none st1 p hck1 hcl1 hsz]
  have hc : hcontains st1.headers "Transfer-Encoding" = true :=
    teHasChunked_hcontains _ hte1
  have hg := (copy_foldl_contains st1.skipAuto p.pheaders "Transfer-Encoding"
    st1.headers hc).1
  unfold teHasChunked at hte1
  unfold update_transfer_encoding
  simp [hg, hte1, chunkedTruthy]

theorem te_conflict_noforce (st1 : DraftRequest) (p : PayloadM)
    (hte1 : teHasChunked st1.headers = true)
    (h : chunkedTruthy st1.chunked = true ∨
      (chunkedTruthy st1.chunked = false ∧
        hcontains st1.headers "Content-Length" = false ∧ p.size = none)) :
    update_transfer_encoding (update_body_from_data st1 (some p)) =
      .error
        "chunked can not be set if \"Transfer-Encoding: chunked\" header is set" := by
  rcases h with h | ⟨h1, h2, h3⟩
  · exact te_conflict_after st1 p hte1 h
  · exact te_conflict_after_sizeforced st1 p hte1 h1 h2 h3

/-- Conflict of the effective chunked flag — requested by the caller,
forced by compress, or forced by an unknown body size — with an explicit
chunked Transfer-Encoding header, whenever transfer-encoding resolution
runs. -/
theorem negotiation_te_conflict (method netloc : String) (user : Headers)
    (skip : List String) (compress : Option String) (chunked : Option Bool)
    (data : Option PayloadM) (hm : methodValid method = true)
    (hrun : teResolutionRuns method data = true)
    (hte : teHasChunked (initHeaders netloc user skip) = true)
    (heff : effChunked (initHeaders netloc user skip) compress chunked data =
      true)
    (hnc1 : ¬(data.isSome = true ∧
        ceEnc (initHeaders netloc user skip) ≠ "" ∧
        compressTruthy compress = true)) :
    buildRequest method netloc user skip compress chunked data =
      .error
        "chunked can not be set if \"Transfer-Encoding: chunked\" header is set" := by
  cases data with
  | none =>
    have hck : chunkedTruthy chunked = true := by
      unfold effChunked compressForced sizeForced at heff
      simpa using heff
    rw [buildRequest_eq _ _ _ _ _ _ _ hm, ce_step_eq]
    simp only [Option.isSome_none]
    rw [if_pos trivial]
    unfold teResolutionRuns at hrun
    simp only [Option.isSome_none, Bool.false_or] at hrun
    simp only [update_body_from_data_none]
    rw [if_pos (by simpa using hrun)]
    unfold update_transfer_encoding teHasChunked at *
    simp [hte, hck]
  | some p =>
    have hdisj : compressForced (initHeaders netloc user skip) compress
        (some p) = false →
        chunkedTruthy chunked = true ∨
          (chunkedTruthy chunked = false ∧
            hcontains (initHeaders netloc user skip) "Content-Length" =
              false ∧
            p.size = none) := by
      intro hcf
      by_cases hck : chunkedTruthy chunked = true
      · exact Or.inl hck
      · right
        have hck' : chunkedTruthy chunked = false := by simpa using hck
        have hsf : sizeForced (initHeaders netloc user skip) compress chunked
            (some p) = true := by
          unfold effChunked at heff
          rw [Bool.or_eq_true] at heff
          rcases heff with h | h
          · rw [Bool.or_eq_true] at h
            rcases h with h | h
            · exact absurd h (by simp [hck'])
            · exact absurd h (by simp [hcf])
          · exact h
        unfold sizeForced at hsf
        simp only [Bool.and_eq_true, Bool.not_eq_true'] at hsf
        have hsz : p.size = none := by
          have := hsf.2
          cases hps : p.size with
          | none => rfl
          | some n => rw [hps] at this; exact absurd this (by simp)
        exact ⟨hck', hsf.1.2, hsz⟩
    rw [buildRequest_eq _ _ _ _ _ _ _ hm, ce_step_eq]
    simp only [Option.isSome_some]
    rw [if_neg (by simp)]
    by_cases hce : ceEnc (initHeaders netloc user skip) = ""
    · by_cases hcp : compressTruthy compress = true
      · rw [if_pos (by simpa using hce), if_pos hcp]
        have hconf := te_conflict_after
          { method := upperStr method,
            headers := hset (initHeaders netloc user skip) "Content-Encoding"
              (compress.getD ""),
            skipAuto := skip, compress := compress, chunked := some true,
            body := BodyM.raw [] } p
          (by
            show teHasChunked
              (hset (initHeaders netloc user skip) "Content-Encoding"
                (compress.getD "")) = true
            unfold teHasChunked at *
            rw [hget_hset, ciEq_ce_te]
            exact hte)
          rfl
        simp only [hconf]
        simp
      · rw [if_pos (by simpa using hce), if_neg (by simpa using hcp)]
        have hcf : compressForced (initHeaders netloc user skip) compress
            (some p) = false := by
          unfold compressForced
          simp [(by simpa using hcp : compressTruthy compress = false)]
        have hconf := te_conflict_noforce
          { method := upperStr method,
            headers := initHeaders netloc user skip,
            skipAuto := skip, compress := compress, chunked := chunked,
            body := BodyM.raw [] } p hte (hdisj hcf)
        simp only [hconf]
        simp
    · have hcp : compressTruthy compress = false := by
        by_contra hh
        exact hnc1 ⟨rfl, hce, by simpa using hh⟩
      rw [if_neg (by simpa using hce), if_neg (by simp [hcp])]
      have hcf : compressForced (initHeaders netloc user skip) compress
          (some p) = false := by
        unfold compressForced ceEnc
        simp [hcp]
      have hconf := te_conflict_noforce
        { method := upperStr method,
          headers := initHeaders netloc user skip,
          skipAuto := skip, compress := compress, chunked := chunked,
          body := BodyM.raw [] } p hte (hdisj hcf)
      simp only [hconf]
      simp

/-- Conflict of the chunked flag — requested by the caller or forced by
compress — with an explicit Content-Length header, whenever
transfer-encoding resolution runs. -/
theorem negotiation_cl_conflict (method netloc : String) (user : Headers)
    (skip : List String) (compress : Option String) (chunked : Option Bool)
    (data : Option PayloadM) (hm : methodValid method = true)
    (hclean : cleanPayload data = true)
    (hrun : teResolutionRuns method data = true)
    (hte : teHasChunked (initHeaders netloc user skip) = false)
    (hccf : (chunkedTruthy chunked ||
      compressForced (initHeaders netloc user skip) compress data) = true)
    (hcl : hcontains (initHeaders netloc user skip) "Content-Length" = true)
    (hnc1 : ¬(data.isSome = true ∧
        ceEnc (initHeaders netloc user skip) ≠ "" ∧
        compressTruthy compress = true)) :
    buildRequest method netloc user skip compress chunked data =
      .error "chunked can not be set if Content-Length header is set" := by
  cases data with
  | none =>
    have hck : chunkedTruthy chunked = true := by
      unfold compressForced at hccf
      simpa using hccf
    rw [buildRequest_eq _ _ _ _ _ _ _ hm, ce_step_eq]
    simp only [Option.isSome_none]
    rw [if_pos trivial]
    unfold teResolutionRuns at hrun
    simp only [Option.isSome_none, Bool.false_or] at hrun
    simp only [update_body_from_data_none]
    rw [if_pos (by simpa using hrun)]
    unfold update_transfer_encoding teHasChunked at *
    simp [hte, hck, hcl]
  | some p =>
    have hnc1' : ¬(ceEnc (initHeaders netloc user skip) ≠ "" ∧
        compressTruthy compress = true) :=
      fun h => hnc1 ⟨rfl, h.1, h.2⟩
    obtain ⟨st2, hbr, hTE, hch, hCL, _⟩ :=
      negotiation_pre_te method netloc user skip compress chunked p hm hclean
        hnc1'
    rw [hbr]
    have hch2 : chunkedTruthy st2.chunked = true := by
      rw [hch]
      unfold effChunked
      rw [Bool.or_eq_true] at hccf
      rcases hccf with h | h <;> simp [h]
    have hCL2 : hcontains st2.headers "Content-Length" = true := by
      rw [hCL, hcl]
      simp
    unfold teHasChunked at hte
    unfold update_transfer_encoding
    simp [hTE, hte, hch2, hCL2]

/-- Every combination outside the three conflicts constructs
successfully. -/
theorem negotiation_success (method netloc : String) (user : Headers)
    (skip : List String) (compress : Option String) (chunked : Option Bool)
    (data : Option PayloadM) (hm : methodValid method = true)
    (hclean : cleanPayload data = true)
    (hnc1 : ¬(data.isSome = true ∧
        ceEnc (initHeaders netloc user skip) ≠ "" ∧
        compressTruthy compress = true))
    (hnc2 : ¬(teResolutionRuns method data = true ∧
        teHasChunked (initHeaders netloc user skip) = true ∧
        effChunked (initHeaders netloc user skip) compress chunked data =
          true))
    (hnc3 : ¬(teResolutionRuns method data = true ∧
        teHasChunked (initHeaders netloc user skip) = false ∧
        (chunkedTruthy chunked ||
          compressForced (initHeaders netloc user skip) compress data) =
          true ∧
        hcontains (initHeaders netloc user skip) "Content-Length" = true)) :
    (buildRequest method netloc user skip compress chunked data).isOk =
      true := by
  cases data with
  | none =>
    rw [buildRequest_eq _ _ _ _ _ _ _ hm, ce_step_eq]
    simp only [Option.isSome_none]
    rw [if_pos trivial]
    simp only [update_body_from_data_none]
    by_cases hg : GET_METHODS.contains (upperStr method) = true
    · rw [if_neg (by simpa using hg)]
      simp [Except.isOk, Except.toBool]
    · have hmem : upperStr method ∉ GET_METHODS := by simpa using hg
      rw [if_pos (by simp [hmem])]
      have hrun : teResolutionRuns method none = true := by
        unfold teResolutionRuns
        simp [hmem]
      apply te_step_ok
      · intro h
        obtain ⟨ha, hb⟩ := h
        refine hnc2 ⟨hrun, ha, ?_⟩
        unfold effChunked compressForced sizeForced
        simp only [Option.isSome_none]
        simp [hb]
      · intro h
        obtain ⟨hb, hc⟩ := h
        by_cases hteH : teHasChunked (initHeaders netloc user skip) = true
        · refine hnc2 ⟨hrun, hteH, ?_⟩
          unfold effChunked
          simp [hb]
        · refine hnc3 ⟨hrun, by simpa using hteH, ?_, hc⟩
          simp [hb]
  | some p =>
    have hnc1' : ¬(ceEnc (initHeaders netloc user skip) ≠ "" ∧
        compressTruthy compress = true) :=
      fun h => hnc1 ⟨rfl, h.1, h.2⟩
    have hrun : teResolutionRuns method (some p) = true := by
      unfold teResolutionRuns
      simp
    obtain ⟨st2, hbr, hTE, hch, hCL, _⟩ :=
      negotiation_pre_te method netloc user skip compress chunked p hm hclean
        hnc1'
    rw [hbr]
    apply te_step_ok
    · intro h
      obtain ⟨ha, hb⟩ := h
      rw [hTE] at ha
      rw [hch] at hb
      exact hnc2 ⟨hrun, ha, hb⟩
    · intro h
      obtain ⟨hb, hc⟩ := h
      rw [hch] at hb
      rw [hCL] at hc
      unfold effChunked at hb
      rw [Bool.or_eq_true] at hb
      rcases hb with hb' | hsf
      · -- requested by flag or forced by compress
        have hclSet : (!chunkedTruthy chunked &&
            !compressForced (initHeaders netloc user skip) compress (some p) &&
            !hcontains (initHeaders netloc user skip) "Content-Length" &&
            p.size.isSome) = false := by
          rw [Bool.or_eq_true] at hb'
          rcases hb' with h1 | h2
          · simp [h1]
          · simp [h2]
        rw [hclSet, Bool.or_false] at hc
        by_cases hteH : teHasChunked (initHeaders netloc user skip) = true
        · exact hnc2 ⟨hrun, hteH, by unfold effChunked; simp [hb']⟩
        · exact hnc3 ⟨hrun, by simpa using hteH, hb', hc⟩
      · -- forced by unknown size: Content-Length was absent
        unfold sizeForced at hsf
        simp only [Bool.and_eq_true, Bool.not_eq_true'] at hsf
        have : (!chunkedTruthy chunked &&
            !compressForced (initHeaders netloc user skip) compress (some p) &&
            !hcontains (initHeaders netloc user skip) "Content-Length" &&
            p.size.isSome) = false := by
          have hsz : p.size = none := by
            have := hsf.2
            cases hps : p.size with
            | none => rfl
            | some n => rw [hps] at this; exact absurd this (by simp)
          simp [hsz]
        rw [this, Bool.or_false] at hc
        rw [hsf.1.2] at hc
        exact absurd hc (by simp)

/-- A successful construction whose initial headers do not already carry
a chunked Transfer-Encoding never ends with both Content-Length and a
chunked Transfer-Encoding. -/
theorem negotiation_exclusive (method netloc : String) (user : Headers)
    (skip : List String) (compress : Option String) (chunked : Option Bool)
    (data : Option PayloadM) (st' : DraftRequest)
    (hm : methodValid method = true) (hclean : cleanPayload data = true)
    (hteH : teHasChunked (initHeaders netloc user skip) = false)
    (hok : buildRequest method netloc user skip compress chunked data =
      .ok st') :
    (hcontains st'.headers "Content-Length" &&
      teHasChunked st'.headers) = false := by
  cases data with
  | none =>
    rw [buildRequest_eq _ _ _ _ _ _ _ hm, ce_step_eq] at hok
    simp only [Option.isSome_none] at hok
    rw [if_pos trivial] at hok
    simp only [update_body_from_data_none] at hok
    split at hok
    · refine te_step_exclusive _ _ ?_ hok
      unfold teHasChunked at hteH
      exact hteH
    · simp only [Except.ok.injEq] at hok
      rw [← hok]
      show (hcontains (initHeaders netloc user skip) "Content-Length" &&
        teHasChunked (initHeaders netloc user skip)) = false
      rw [hteH]
      simp
  | some p =>
    have hnc1' : ¬(ceEnc (initHeaders netloc user skip) ≠ "" ∧
        compressTruthy compress = true) := by
      intro h
      rw [negotiation_ce_conflict method netloc user skip compress chunked p
        hm h.1 h.2] at hok
      exact absurd hok (by simp)
    obtain ⟨st2, hbr, hTE, _, _, _⟩ :=
      negotiation_pre_te method netloc user skip compress chunked p hm hclean
        hnc1'
    rw [hbr] at hok
    refine te_step_exclusive st2 st' ?_ hok
    rw [hTE]
    unfold teHasChunked at hteH
    exact hteH

/-- Claim C3 (amended): each header conflict raises a configuration error
whenever its negotiation step runs — compress with an explicit non-empty
Content-Encoding header fails when a body is present; the effective
chunked flag (requested by the caller, forced by compress, or forced by
an unknown body size) with a chunked Transfer-Encoding header, and the
effective chunked flag (requested or compress-forced) with a
Content-Length header, fail when a body is present or the method is not a
no-body method, the compress conflict taking precedence; every
combination outside these conflicts constructs successfully; and a
successful construction whose supplied headers did not already carry a
chunked Transfer-Encoding never ends with both Content-Length and a
chunked Transfer-Encoding (the negotiation itself never introduces the
second of the pair). -/
theorem header_conflicts_spec (method netloc : String) (user : Headers)
    (skip : List String) (compress : Option String) (chunked : Option Bool)
    (data : Option PayloadM) (hm : methodValid method = true) :
    (data.isSome = true → ceEnc (initHeaders netloc user skip) ≠ "" →
      compressTruthy compress = true →
      buildRequest method netloc user skip compress chunked data =
        .error "compress can not be set if Content-Encoding header is set") ∧
    (teResolutionRuns method data = true →
      teHasChunked (initHeaders netloc user skip) = true →
      effChunked (initHeaders netloc user skip) compress chunked data =
        true →
      ¬(data.isSome = true ∧ ceEnc (initHeaders netloc user skip) ≠ "" ∧
        compressTruthy compress = true) →
      buildRequest method netloc user skip compress chunked data =
        .error
          "chunked can not be set if \"Transfer-Encoding: chunked\" header is set") ∧
    (cleanPayload data = true → teResolutionRuns method data = true →
      teHasChunked (initHeaders netloc user skip) = false →
      (chunkedTruthy chunked ||
        compressForced (initHeaders netloc user skip) compress data) =
        true →
      hcontains (initHeaders netloc user skip) "Content-Length" = true →
      ¬(data.isSome = true ∧ ceEnc (initHeaders netloc user skip) ≠ "" ∧
        compressTruthy compress = true) →
      buildRequest method netloc user skip compress chunked data =
        .error "chunked can not be set if Content-Length header is set") ∧
    (cleanPayload data = true →
      ¬(data.isSome = true ∧ ceEnc (initHeaders netloc user skip) ≠ "" ∧
        compressTruthy compress = true) →
      ¬(teResolutionRuns method data = true ∧
        teHasChunked (initHeaders netloc user skip) = true ∧
        effChunked (initHeaders netloc user skip) compress chunked data =
          true) →
      ¬(teResolutionRuns method data = true ∧
        teHasChunked (initHeaders netloc user skip) = false ∧
        (chunkedTruthy chunked ||
          compressForced (initHeaders netloc user skip) compress data) =
          true ∧
        hcontains (initHeaders netloc user skip) "Content-Length" = true) →
      (buildRequest method netloc user skip compress chunked data).isOk =
        true) ∧
    (∀ st', cleanPayload data = true →
      teHasChunked (initHeaders netloc user skip) = false →
      buildRequest method netloc user skip compress chunked data = .ok st' →
      (hcontains st'.headers "Content-Length" &&
        teHasChunked st'.headers) = false) := by
  refine ⟨?_, ?_, ?_, ?_, ?_⟩
  · intro hd hce hcp
    cases data with
    | none => exact absurd hd (by simp)
    | some p =>
      exact negotiation_ce_conflict method netloc user skip compress chunked
        p hm hce hcp
  · intro hrun hte heff hnc1
    exact negotiation_te_conflict method netloc user skip compress chunked
      data hm hrun hte heff hnc1
  · intro hclean hrun hte hccf hcl hnc1
    exact negotiation_cl_conflict method netloc user skip compress chunked
      data hm hclean hrun hte hccf hcl hnc1
  · intro hclean hnc1 hnc2 hnc3
    exact negotiation_success method netloc user skip compress chunked data
      hm hclean hnc1 hnc2 hnc3
  · intro st' hclean hteH hok
    exact negotiation_exclusive method netloc user skip compress chunked
      data st' hm hclean hteH hok

/-- Counterexample to claim C3 as stated, one concrete input per refuted
part.  First, exclusivity: a POST with a caller-supplied chunked
Transfer-Encoding header and a five-byte buffered body — no compress flag
and no chunked flag, so none of the listed conflicts — is constructed
successfully with both Content-Length 5 and Transfer-Encoding chunked.
Second and third, the claimed conflicts do not always raise: compress
with a Content-Encoding header but no body, and the chunked flag with a
chunked Transfer-Encoding header on a bodyless GET, both construct
successfully.  Fourth and fifth, combinations outside the claimed
conflict list raise: compress (which forces chunked) with a caller
Content-Length header and a body fails with the Content-Length conflict,
and an unknown-size body (which forces chunked) with a caller chunked
Transfer-Encoding header fails with the Transfer-Encoding conflict. -/
theorem header_conflicts_counterexample :
    (buildRequest "POST" "example.com" [("Transfer-Encoding", "chunked")] []
      none none (some ⟨some 5, []⟩)).map
        (fun st => (hcontains st.headers "Content-Length",
                    hget st.headers "Transfer-Encoding",
                    hget st.headers "Content-Length")) =
      .ok (true, some "chunked", some "5") ∧
    (buildRequest "GET" "example.com" [("Content-Encoding", "gzip")] []
      (some "deflate") none none).isOk = true ∧
    (buildRequest "GET" "example.com" [("Transfer-Encoding", "chunked")] []
      none (some true) none).isOk = true ∧
    buildRequest "POST" "example.com" [("Content-Length", "3")] []
      (some "deflate") none (some ⟨some 3, []⟩) =
      .error "chunked can not be set if Content-Length header is set" ∧
    buildRequest "POST" "example.com" [("Transfer-Encoding", "chunked")] []
      none none (some ⟨none, []⟩) =
      .error
        "chunked can not be set if \"Transfer-Encoding: chunked\" header is set" :=
  ⟨rfl, rfl, rfl, rfl, rfl⟩

/-- Witness for header_conflicts_spec: the compress conflict raises at a
concrete request with a body and a Content-Encoding header, the
compress-forced chunked flag conflicts with a caller Content-Length
header, the caller chunked flag conflicts with a chunked
Transfer-Encoding header, and a plain POST with a three-byte body
constructs successfully. -/
theorem header_conflicts_spec_witness :
    buildRequest "POST" "example.com" [("Content-Encoding", "gzip")] []
      (some "deflate") none (some ⟨some 3, []⟩) =
      .error "compress can not be set if Content-Encoding header is set" ∧
    buildRequest "POST" "example.com" [("Content-Length", "3")] []
      (some "deflate") none (some ⟨some 3, []⟩) =
      .error "chunked can not be set if Content-Length header is set" ∧
    buildRequest "POST" "example.com" [("Transfer-Encoding", "chunked")] []
      none (some true) (some ⟨some 3, []⟩) =
      .error
        "chunked can not be set if \"Transfer-Encoding: chunked\" header is set" ∧
    (buildRequest "POST" "example.com" [] [] none none
      (some ⟨some 3, []⟩)).isOk = true :=
  ⟨(header_conflicts_spec "POST" "example.com"
      [("Content-Encoding", "gzip")] [] (some "deflate") none
      (some ⟨some 3, []⟩) (by decide)).1 (by decide) (by decide) (by decide),
   (header_conflicts_spec "POST" "example.com" [("Content-Length", "3")] []
      (some "deflate") none (some ⟨some 3, []⟩) (by decide)).2.2.1
      (by decide) (by decide) (by decide) (by decide) (by decide)
      (by decide),
   (header_conflicts_spec "POST" "example.com"
      [("Transfer-Encoding", "chunked")] [] none (some true)
      (some ⟨some 3, []⟩) (by decide)).2.1 (by decide) (by decide)
      (by decide) (by decide),
   (header_conflicts_spec "POST" "example.com" [] [] none none
      (some ⟨some 3, []⟩) (by decide)).2.2.2.1 (by decide)
      (by decide) (by decide) (by decide)⟩

/-- Claim C4: when a body is present or the method is a body-carrying
method, chunked transfer is neither requested (flag or header) nor forced
(no compress flag), and the caller set no Content-Length: construction
succeeds and Content-Length is computed from the body byte length when
that length is known — the payload size for a payload body, zero for the
default empty buffer — while an unknown payload size forces chunked
transfer encoding instead. -/
theorem content_length_resolution (method netloc : String) (user : Headers)
    (skip : List String) (chunked : Option Bool) (data : Option PayloadM)
    (hm : methodValid method = true)
    (hck : chunkedTruthy chunked = false)
    (hte : teHasChunked (initHeaders netloc user skip) = false)
    (hcl : hcontains (initHeaders netloc user skip) "Content-Length" = false)
    (hclean : cleanPayload data = true) :
    (∀ p n, data = some p → p.size = some n →
      ∃ st', buildRequest method netloc user skip none chunked data =
          .ok st' ∧
        hget st'.headers "Content-Length" = some (toString n) ∧
        chunkedTruthy st'.chunked = false) ∧
    (∀ p, data = some p → p.size = none →
      ∃ st', buildRequest method netloc user skip none chunked data =
          .ok st' ∧
        st'.chunked = some true ∧
        hget st'.headers "Transfer-Encoding" = some "chunked" ∧
        hcontains st'.headers "Content-Length" = false) ∧
    (data = none → GET_METHODS.contains (upperStr method) = false →
      ∃ st', buildRequest method netloc user skip none chunked data =
          .ok st' ∧
        hget st'.headers "Content-Length" = some (toString 0)) := by
  have hnc1' : ¬(ceEnc (initHeaders netloc user skip) ≠ "" ∧
      compressTruthy (none : Option String) = true) := by
    intro h
    exact absurd h.2 (by simp [compressTruthy])
  refine ⟨?_, ?_, ?_⟩
  · intro p n hd hsz
    subst hd
    have hcf : compressForced (initHeaders netloc user skip) none (some p) =
        false := by
      unfold compressForced compressTruthy
      simp
    obtain ⟨st2, hbr, hTE, hch, hCL, hval⟩ :=
      negotiation_pre_te method netloc user skip none chunked p hm hclean
        hnc1'
    have hch2 : chunkedTruthy st2.chunked = false := by
      rw [hch]
      unfold effChunked sizeForced
      simp [hck, hcf, hsz]
    have hCL2 : hcontains st2.headers "Content-Length" = true := by
      rw [hCL, hcl, hck, hcf, hsz]
      simp
    have hv : hget st2.headers "Content-Length" = some (toString n) :=
      hval n hsz hcl hck hcf
    refine ⟨st2, ?_, hv, hch2⟩
    rw [hbr]
    unfold teHasChunked at hte
    unfold update_transfer_encoding
    simp [hTE, hte, hch2, hCL2]
  · intro p hd hsz
    subst hd
    have hcf : compressForced (initHeaders netloc user skip) none (some p) =
        false := by
      unfold compressForced compressTruthy
      simp
    obtain ⟨st2, hbr, hTE, hch, hCL, _⟩ :=
      negotiation_pre_te method netloc user skip none chunked p hm hclean
        hnc1'
    have hch2 : chunkedTruthy st2.chunked = true := by
      rw [hch]
      unfold effChunked sizeForced
      simp [hck, hcf, hcl, hsz]
    have hchEq : st2.chunked = some true := by
      cases hc : st2.chunked with
      | none => rw [hc] at hch2; exact absurd hch2 (by simp [chunkedTruthy])
      | some b =>
        cases b with
        | false => rw [hc] at hch2; exact absurd hch2 (by simp [chunkedTruthy])
        | true => rfl
    have hCL2 : hcontains st2.headers "Content-Length" = false := by
      rw [hCL]
      simp [hcl, hsz]
    refine ⟨{ st2 with
        headers := hset st2.headers "Transfer-Encoding" "chunked" }, ?_, ?_,
        ?_, ?_⟩
    · rw [hbr]
      unfold teHasChunked at hte
      unfold update_transfer_encoding
      simp [hTE, hte, hch2, hCL2]
    · exact hchEq
    · rw [hget_hset, if_pos (by rw [ciEq_te_te])]
    · rw [hcontains_hset, ciEq_te_cl, hCL2]
      rfl
  · intro hd hg
    subst hd
    rw [buildRequest_eq _ _ _ _ _ _ _ hm, ce_step_eq]
    simp only [Option.isSome_none]
    rw [if_pos trivial]
    simp only [update_body_from_data_none]
    have hmem : upperStr method ∉ GET_METHODS := by simpa using hg
    rw [if_pos (by simp [hmem])]
    unfold teHasChunked at hte
    unfold update_transfer_encoding
    refine ⟨{ method := upperStr method,
              headers := hset (initHeaders netloc user skip) "Content-Length"
                (toString (bodyLen (BodyM.raw []))),
              skipAuto := skip, compress := none, chunked := chunked,
              body := BodyM.raw [] }, ?_, ?_⟩
    · simp [hte, hck, hcl]
    · rw [hget_hset, if_pos (by rw [ciEq_cl_cl])]
      rfl

/-- Witness for content_length_resolution: a ten-byte body gets
Content-Length 10, an unknown-size body forces chunked, and a bodyless
POST gets Content-Length 0. -/
theorem content_length_resolution_witness :
    (∃ st', buildRequest "POST" "example.com" [] [] none none
        (some ⟨some 10, []⟩) = .ok st' ∧
      hget st'.headers "Content-Length" = some (toString 10) ∧
      chunkedTruthy st'.chunked = false) ∧
    (∃ st', buildRequest "POST" "example.com" [] [] none none
        (some ⟨none, []⟩) = .ok st' ∧
      st'.chunked = some true ∧
      hget st'.headers "Transfer-Encoding" = some "chunked" ∧
      hcontains st'.headers "Content-Length" = false) ∧
    (∃ st', buildRequest "POST" "example.com" [] [] none none none =
        .ok st' ∧
      hget st'.headers "Content-Length" = some (toString 0)) :=
  ⟨(content_length_resolution "POST" "example.com" [] [] none
      (some ⟨some 10, []⟩) (by decide) (by decide) (by decide) (by decide)
      (by decide)).1 ⟨some 10, []⟩ 10 rfl rfl,
   (content_length_resolution "POST" "example.com" [] [] none
      (some ⟨none, []⟩) (by decide) (by decide) (by decide) (by decide)
      (by decide)).2.1 ⟨none, []⟩ rfl rfl,
   (content_length_resolution "POST" "example.com" [] [] none none
      (by decide) (by decide) (by decide) (by decide) (by decide)).2.2 rfl
      (by decide)⟩

/-- Witness for raise_for_status_spec: a 404 response is released and the
error carries its fields, while a 200 response is returned unchanged. -/
theorem raise_for_status_spec_witness :
    raise_for_status { initialInFlight with status := 404, reason := "Not Found" } =
      (respRelease { initialInFlight with status := 404, reason := "Not Found" },
       some ⟨0, [], 404, "Not Found", []⟩) ∧
    raise_for_status initialInFlight = (initialInFlight, none) :=
  ⟨((raise_for_status_spec
      { initialInFlight with status := 404, reason := "Not Found" }).2.2
      (by decide)).1,
   (raise_for_status_spec initialInFlight).2.1 (by decide)⟩
